import Mathlib

/-!
Verification of the friendly-date library (key validators, builders,
date-to-key converters with locale week numbering, friendly formatter and
current-period comparator).

The embedding models:
* calendar instants as integer day numbers (days since 1970-01-01, proleptic
  Gregorian calendar, day granularity — the library only ever uses the civil
  date part of a JavaScript `Date`);
* a possibly-invalid JavaScript `Date` as `Option Int` (`none` = Invalid Date);
* fallible operations (`throw` in the source) as `Except String`;
* the ambient wall clock as an explicit `now`/`ref` parameter threaded to the
  functions that read `new Date()` in the source;
* the external date-fns / Intl collaborators at the day-granular contract the
  library relies on (Sunday week start, firstWeekContainsDate = 1, en-US
  month/weekday names).
-/

set_option maxRecDepth 200000

namespace FriendlyDate

/-! ## Decimal digit strings (JavaScript number-to-string and parseInt) -/

/-- Character class of the regular-expression atom `\d`. -/
def isDigitC (c : Char) : Bool :=
  c == '0' || c == '1' || c == '2' || c == '3' || c == '4' ||
  c == '5' || c == '6' || c == '7' || c == '8' || c == '9'

/-- Digit character of a value below ten (JavaScript decimal printing). -/
def digitChar (m : Nat) : Char :=
  if m = 0 then '0' else if m = 1 then '1' else if m = 2 then '2'
  else if m = 3 then '3' else if m = 4 then '4' else if m = 5 then '5'
  else if m = 6 then '6' else if m = 7 then '7' else if m = 8 then '8'
  else '9'

/-- Numeric value of a digit character. -/
def digitVal (c : Char) : Nat := c.toNat - 48

/-- Structural helper for `natDigits`: the fuel bounds the number of
divisions by ten and any fuel above the value is enough. -/
def natDigitsGo (fuel : Nat) (n : Nat) : List Char :=
  match fuel with
  | 0 => []
  | Nat.succ f =>
    if n < 10 then [digitChar n]
    else natDigitsGo f (n / 10) ++ [digitChar (n % 10)]

/-- Decimal digits of a natural number, most significant first
(the semantics of JavaScript `String(n)` for a nonnegative integer). -/
def natDigits (n : Nat) : List Char := natDigitsGo (n + 1) n

theorem natDigitsGo_fuel : ∀ f1 : Nat, ∀ f2 n : Nat, n < f1 → n < f2 →
    natDigitsGo f1 n = natDigitsGo f2 n := by
  intro f1
  induction f1 with
  | zero => intro f2 n h1 _; omega
  | succ f ih =>
    intro f2 n h1 h2
    match f2, h2 with
    | Nat.succ g, h2 =>
      show (if n < 10 then _ else _) = (if n < 10 then _ else _)
      by_cases hn : n < 10
      · rw [if_pos hn, if_pos hn]
      · rw [if_neg hn, if_neg hn]
        have hdiv : n / 10 < f := by omega
        have hdiv2 : n / 10 < g := by omega
        rw [ih g (n / 10) hdiv hdiv2]

/-- Value of a digit string (JavaScript `parseInt(s, 10)` on an all-digit
string). -/
def parseDigits (l : List Char) : Nat :=
  l.foldl (fun a c => a * 10 + digitVal c) 0

/-- Left-pad a character list with zeros to the given length
(JavaScript `padStart(k, "0")`). -/
def padZ (k : Nat) (l : List Char) : List Char :=
  List.replicate (k - l.length) '0' ++ l

theorem digitVal_digitChar : ∀ m, m < 10 → digitVal (digitChar m) = m := by decide

theorem isDigitC_digitChar (m : Nat) : isDigitC (digitChar m) = true := by
  unfold digitChar
  split_ifs <;> decide

theorem isDigitC_cases {c : Char} (h : isDigitC c = true) :
    c = '0' ∨ c = '1' ∨ c = '2' ∨ c = '3' ∨ c = '4' ∨
    c = '5' ∨ c = '6' ∨ c = '7' ∨ c = '8' ∨ c = '9' := by
  simp only [isDigitC, Bool.or_eq_true, beq_iff_eq] at h
  tauto

theorem digitVal_lt {c : Char} (h : isDigitC c = true) : digitVal c < 10 := by
  rcases isDigitC_cases h with h|h|h|h|h|h|h|h|h|h <;> subst h <;> decide

theorem digitChar_digitVal {c : Char} (h : isDigitC c = true) :
    digitChar (digitVal c) = c := by
  rcases isDigitC_cases h with h|h|h|h|h|h|h|h|h|h <;> subst h <;> decide

theorem foldlDig (t : List Char) (a : Nat) :
    t.foldl (fun x c => x * 10 + digitVal c) a =
      a * 10 ^ t.length + t.foldl (fun x c => x * 10 + digitVal c) 0 := by
  induction t generalizing a with
  | nil => simp
  | cons c t ih =>
    rw [List.foldl_cons, List.foldl_cons, ih (a * 10 + digitVal c),
      ih (0 * 10 + digitVal c), List.length_cons, pow_succ]
    ring

theorem parseDigits_cons (c : Char) (t : List Char) :
    parseDigits (c :: t) = digitVal c * 10 ^ t.length + parseDigits t := by
  simp only [parseDigits, List.foldl_cons]
  rw [foldlDig t (0 * 10 + digitVal c)]
  ring

theorem parseDigits_append (l1 l2 : List Char) :
    parseDigits (l1 ++ l2) = parseDigits l1 * 10 ^ l2.length + parseDigits l2 := by
  simp only [parseDigits, List.foldl_append]
  rw [foldlDig l2 (List.foldl (fun x c => x * 10 + digitVal c) 0 l1)]

theorem parseDigits_lt (l : List Char) (h : ∀ c ∈ l, isDigitC c = true) :
    parseDigits l < 10 ^ l.length := by
  induction l with
  | nil => simp [parseDigits]
  | cons c t ih =>
    rw [parseDigits_cons]
    have hc : digitVal c < 10 := digitVal_lt (h c (by simp))
    have ht := ih (fun d hd => h d (by simp [hd]))
    have hpow : 10 ^ (c :: t).length = 10 * 10 ^ t.length := by
      rw [List.length_cons, pow_succ]; ring
    rw [hpow]
    nlinarith

theorem natDigits_lt10 {n : Nat} (h : n < 10) : natDigits n = [digitChar n] := by
  show natDigitsGo (n + 1) n = _
  simp [natDigitsGo, h]

theorem natDigits_ge10 (n : Nat) (h : 10 ≤ n) :
    natDigits n = natDigits (n / 10) ++ [digitChar (n % 10)] := by
  have h1 : natDigitsGo (n + 1) n =
      natDigitsGo n (n / 10) ++ [digitChar (n % 10)] := by
    simp [natDigitsGo, Nat.not_lt.mpr h]
  have h2 : natDigitsGo n (n / 10) = natDigitsGo (n / 10 + 1) (n / 10) :=
    natDigitsGo_fuel n (n / 10 + 1) (n / 10) (by omega) (by omega)
  show natDigitsGo (n + 1) n = _
  rw [h1, h2]
  rfl

theorem parseDigits_natDigits (n : Nat) : parseDigits (natDigits n) = n := by
  induction n using Nat.strong_induction_on with
  | _ n ih =>
    by_cases h : n < 10
    · rw [natDigits_lt10 h]
      simp only [parseDigits, List.foldl_cons, List.foldl_nil]
      rw [Nat.zero_mul, Nat.zero_add]
      exact digitVal_digitChar n h
    · rw [natDigits_ge10 n (by omega), parseDigits_append]
      have h10 : n / 10 < n := Nat.div_lt_self (by omega) (by omega)
      rw [ih (n / 10) h10]
      have hsingle : parseDigits [digitChar (n % 10)] = n % 10 := by
        simp only [parseDigits, List.foldl_cons, List.foldl_nil]
        rw [Nat.zero_mul, Nat.zero_add]
        exact digitVal_digitChar (n % 10) (by omega)
      rw [hsingle]
      simp only [List.length_cons, List.length_nil, pow_one]
      omega

theorem natDigits_all_digits (n : Nat) : ∀ c ∈ natDigits n, isDigitC c = true := by
  induction n using Nat.strong_induction_on with
  | _ n ih =>
    by_cases h : n < 10
    · rw [natDigits_lt10 h]
      intro c hc
      simp at hc
      subst hc
      exact isDigitC_digitChar n
    · rw [natDigits_ge10 n (by omega)]
      intro c hc
      rw [List.mem_append] at hc
      rcases hc with hc | hc
      · exact ih (n / 10) (Nat.div_lt_self (by omega) (by omega)) c hc
      · simp at hc
        subst hc
        exact isDigitC_digitChar (n % 10)

theorem natDigits_ne_nil (n : Nat) : natDigits n ≠ [] := by
  by_cases h : n < 10
  · rw [natDigits_lt10 h]
    simp
  · rw [natDigits_ge10 n (by omega)]
    simp

theorem parseDigits_zero_all_zero (l : List Char)
    (hd : ∀ c ∈ l, isDigitC c = true) (h : parseDigits l = 0) :
    l = List.replicate l.length '0' := by
  induction l with
  | nil => simp
  | cons c t ih =>
    rw [parseDigits_cons] at h
    have h1 : digitVal c = 0 := by
      have := Nat.pos_pow_of_pos (n := 10) t.length (by omega)
      nlinarith
    have h2 : parseDigits t = 0 := by
      have := Nat.pos_pow_of_pos (n := 10) t.length (by omega)
      nlinarith
    have hc : c = '0' := by
      have hcc := digitChar_digitVal (hd c (by simp))
      rw [h1] at hcc
      simpa [digitChar] using hcc.symm
    simp only [List.length_cons, List.replicate_succ]
    rw [← ih (fun d hdm => hd d (by simp [hdm])) h2, hc]

/-- A nonempty all-digit string, zero-padded back to its own length, is
recovered exactly from its numeric value. -/
theorem padZ_natDigits_parseDigits (l : List Char) (hne : l ≠ [])
    (hd : ∀ c ∈ l, isDigitC c = true) :
    padZ l.length (natDigits (parseDigits l)) = l := by
  induction l using List.reverseRecOn with
  | nil => simp at hne
  | append_singleton t c ih =>
    have hc : isDigitC c = true := hd c (by simp)
    have hcv : digitVal c < 10 := digitVal_lt hc
    have hval : parseDigits (t ++ [c]) = parseDigits t * 10 + digitVal c := by
      rw [parseDigits_append]
      simp only [List.length_cons, List.length_nil, pow_one]
      have : parseDigits [c] = digitVal c := by
        simp only [parseDigits, List.foldl_cons, List.foldl_nil]
        omega
      omega
    have hlen : (t ++ [c]).length = t.length + 1 := by simp
    rw [hval, hlen]
    by_cases hp : parseDigits t = 0
    · rw [hp]
      have hzeros : t = List.replicate t.length '0' :=
        parseDigits_zero_all_zero t (fun d hdm => hd d (by simp [hdm])) hp
      rw [Nat.zero_mul, Nat.zero_add, natDigits_lt10 hcv, digitChar_digitVal hc]
      simp only [padZ, List.length_cons, List.length_nil]
      conv_rhs => rw [hzeros]
      have h1 : t.length + 1 - 1 = t.length := by omega
      rw [h1]
    · have ht : t ≠ [] := by
        intro hnil
        rw [hnil] at hp
        simp [parseDigits] at hp
      have hp1 : 1 ≤ parseDigits t := by omega
      have hge : 10 ≤ parseDigits t * 10 + digitVal c := by nlinarith
      rw [natDigits_ge10 _ hge]
      have hdiv : (parseDigits t * 10 + digitVal c) / 10 = parseDigits t := by omega
      have hmod : (parseDigits t * 10 + digitVal c) % 10 = digitVal c := by omega
      rw [hdiv, hmod, digitChar_digitVal hc]
      have iht := ih ht (fun d hdm => hd d (by simp [hdm]))
      simp only [padZ] at iht ⊢
      have hlenle : (natDigits (parseDigits t)).length ≤ t.length := by
        by_contra hgt
        push_neg at hgt
        have hz : t.length - (natDigits (parseDigits t)).length = 0 := by omega
        rw [hz] at iht
        simp only [List.replicate_zero, List.nil_append] at iht
        have := congrArg List.length iht
        omega
      have hlen2 : t.length + 1 - ((natDigits (parseDigits t)).length + 1) =
          t.length - (natDigits (parseDigits t)).length := by
        simp
      rw [List.length_append, List.length_cons, List.length_nil, hlen2,
        ← List.append_assoc, iht]

/-! ## Proleptic Gregorian civil calendar on integer day numbers

A calendar instant is an integer day number (days since 1970-01-01). This is
the day-granular content of a JavaScript `Date`; the library never looks at
the time of day. -/

/-- Gregorian leap-year test. -/
def isLeap (y : Int) : Bool := (y % 4 == 0 && y % 100 != 0) || y % 400 == 0

/-- Days in month m (1-12) of a year with leap flag L. -/
def daysInMonthL (L : Bool) (m : Nat) : Nat :=
  match m with
  | 1 => 31 | 2 => if L then 29 else 28 | 3 => 31 | 4 => 30 | 5 => 31
  | 6 => 30 | 7 => 31 | 8 => 31 | 9 => 30 | 10 => 31 | 11 => 30 | 12 => 31
  | _ => 0

/-- Days of the year before month m (m = 1..13; the row for 13 is the year
length). -/
def monthOffset (L : Bool) (m : Nat) : Nat :=
  let e : Nat := if L then 1 else 0
  match m with
  | 1 => 0 | 2 => 31 | 3 => 59 + e | 4 => 90 + e | 5 => 120 + e | 6 => 151 + e
  | 7 => 181 + e | 8 => 212 + e | 9 => 243 + e | 10 => 273 + e | 11 => 304 + e
  | 12 => 334 + e | _ => 365 + e

/-- Days from 0000-01-01 to y-01-01 (exact for every integer; `/` is
Euclidean division, which is floor division for positive divisors). -/
def daysToYear (y : Int) : Int :=
  365 * y + (y + 3) / 4 - (y + 99) / 100 + (y + 399) / 400

/-- Day count from 0000-01-01 to 1970-01-01 (the epoch). -/
def epochShift : Int := 719528

/-- Day number (days since 1970-01-01) of the civil date y-m-d. -/
def daysFromCivil (y : Int) (m d : Nat) : Int :=
  daysToYear y + monthOffset (isLeap y) m + d - 1 - epochShift

/-- `daysToYear` within one 400-year era, as a natural number (k = 0..400). -/
def yearStartOfEra (k : Nat) : Nat :=
  365 * k + (k + 3) / 4 - (k + 99) / 100 + (k + 399) / 400

/-- Largest year-of-era j ≤ n with `yearStartOfEra j ≤ doe`, by downward
scan. -/
def findYoeGo (doe : Nat) : Nat → Nat
  | 0 => 0
  | k + 1 => if yearStartOfEra (k + 1) ≤ doe then k + 1 else findYoeGo doe k

/-- Largest month m ≤ j+1 with `monthOffset L m ≤ doy`, by downward scan
(month 1 always qualifies). -/
def findMonthGo (L : Bool) (doy : Nat) : Nat → Nat
  | 0 => 1
  | j + 1 => if monthOffset L (j + 2) ≤ doy then j + 2 else findMonthGo L doy j

/-- 400-year era index of a day number. -/
def eraOf (z : Int) : Int := (z + epochShift) / 146097

/-- Day-of-era (0..146096) of a day number. -/
def doeOf (z : Int) : Nat := ((z + epochShift) % 146097).toNat

/-- Year-of-era (0..399) of a day number. -/
def yoeOf (z : Int) : Nat := findYoeGo (doeOf z) 399

/-- Calendar year containing a day number. -/
def yearOf (z : Int) : Int := 400 * eraOf z + yoeOf z

/-- Day-of-year (0-based) of a day number. -/
def doyOf (z : Int) : Nat := doeOf z - yearStartOfEra (yoeOf z)

/-- Calendar month (1-12) containing a day number. -/
def monthOf (z : Int) : Nat := findMonthGo (isLeap (yearOf z)) (doyOf z) 11

/-- Day of the month (1-31) of a day number. -/
def dayOf (z : Int) : Nat :=
  doyOf z - monthOffset (isLeap (yearOf z)) (monthOf z) + 1

/-- Civil date (year, month, day) of a day number. -/
def civilFromDays (z : Int) : Int × Nat × Nat := (yearOf z, monthOf z, dayOf z)

theorem yearStartOfEra_step :
    ∀ k, k < 400 →
      yearStartOfEra (k + 1) =
        yearStartOfEra k + 365 + (if isLeap (k : Int) then 1 else 0) := by
  decide

theorem yearStartOfEra_mono : ∀ i j, i ≤ j → j ≤ 400 →
    yearStartOfEra i ≤ yearStartOfEra j := by
  intro i j hij hj
  induction j with
  | zero =>
    have hi : i = 0 := by omega
    subst hi
    exact le_refl _
  | succ n ih =>
    rcases Nat.lt_or_ge i (n + 1) with h | h
    · have := ih (by omega) (by omega)
      have hs := yearStartOfEra_step n (by omega)
      omega
    · have hi : i = n + 1 := by omega
      subst hi
      exact le_refl _

theorem yearStartOfEra_400 : yearStartOfEra 400 = 146097 := by decide

theorem monthOffset_one (L : Bool) : monthOffset L 1 = 0 := by cases L <;> rfl

theorem monthOffset_13 (L : Bool) :
    monthOffset L 13 = 365 + (if L then 1 else 0) := by cases L <;> rfl

theorem monthOffset_step : ∀ (L : Bool) (m : Nat), 1 ≤ m → m ≤ 12 →
    monthOffset L (m + 1) = monthOffset L m + daysInMonthL L m := by
  decide

theorem monthOffset_mono (L : Bool) {i j : Nat} (hij : i ≤ j) (hi : 1 ≤ i)
    (hj : j ≤ 13) : monthOffset L i ≤ monthOffset L j := by
  have h : ∀ i, i < 14 → ∀ j, j < 14 → i ≤ j → 1 ≤ i →
      monthOffset L i ≤ monthOffset L j := by
    cases L <;> decide
  exact h i (by omega) j (by omega) hij hi

theorem isLeap_period (e : Int) (k : Nat) : isLeap (400 * e + k) = isLeap k := by
  unfold isLeap
  have h4 : (400 * e + (k : Int)) % 4 = (k : Int) % 4 := by omega
  have h100 : (400 * e + (k : Int)) % 100 = (k : Int) % 100 := by omega
  have h400 : (400 * e + (k : Int)) % 400 = (k : Int) % 400 := by omega
  rw [h4, h100, h400]

theorem daysToYear_era (e : Int) (k : Nat) (hk : k ≤ 400) :
    daysToYear (400 * e + k) = 146097 * e + yearStartOfEra k := by
  unfold daysToYear yearStartOfEra
  omega

theorem daysToYear_mono {a b : Int} (h : a ≤ b) : daysToYear a ≤ daysToYear b := by
  unfold daysToYear
  omega

theorem daysToYear_gap {a b : Int} (h : a < b) :
    daysToYear a + 364 ≤ daysToYear b := by
  unfold daysToYear
  omega

theorem daysToYear_step (y : Int) :
    daysToYear y + 365 ≤ daysToYear (y + 1) ∧
      daysToYear (y + 1) ≤ daysToYear y + 366 := by
  unfold daysToYear
  omega

theorem findYoeGo_le (doe : Nat) : ∀ n, findYoeGo doe n ≤ n := by
  intro n
  induction n with
  | zero => simp [findYoeGo]
  | succ k ih =>
    unfold findYoeGo
    split
    · omega
    · omega

theorem yearStartOfEra_findYoeGo (doe : Nat) :
    ∀ n, yearStartOfEra (findYoeGo doe n) ≤ doe := by
  intro n
  induction n with
  | zero => simp [findYoeGo, yearStartOfEra]
  | succ k ih =>
    unfold findYoeGo
    split
    · assumption
    · assumption

theorem le_findYoeGo (doe : Nat) :
    ∀ n j, j ≤ n → yearStartOfEra j ≤ doe → j ≤ findYoeGo doe n := by
  intro n
  induction n with
  | zero => intro j hj _; omega
  | succ k ih =>
    intro j hj hys
    unfold findYoeGo
    split
    · omega
    · next hlt =>
      rcases Nat.lt_or_ge j (k + 1) with h | h
      · exact ih j (by omega) hys
      · have : j = k + 1 := by omega
        subst this
        exact absurd hys hlt

theorem doe_lt_findYoeGo_succ (doe : Nat) (h : doe < 146097) :
    doe < yearStartOfEra (findYoeGo doe 399 + 1) := by
  by_contra hcon
  push_neg at hcon
  have hle := findYoeGo_le doe 399
  rcases Nat.lt_or_ge (findYoeGo doe 399) 399 with hlt | hge
  · have := le_findYoeGo doe 399 (findYoeGo doe 399 + 1) (by omega) hcon
    omega
  · have heq : findYoeGo doe 399 = 399 := by omega
    rw [heq] at hcon
    rw [yearStartOfEra_400] at hcon
    omega

theorem findMonthGo_le (L : Bool) (doy : Nat) : ∀ j, findMonthGo L doy j ≤ j + 1 := by
  intro j
  induction j with
  | zero => simp [findMonthGo]
  | succ k ih =>
    unfold findMonthGo
    split
    · omega
    · omega

theorem one_le_findMonthGo (L : Bool) (doy : Nat) : ∀ j, 1 ≤ findMonthGo L doy j := by
  intro j
  induction j with
  | zero => simp [findMonthGo]
  | succ k ih =>
    unfold findMonthGo
    split
    · omega
    · assumption

theorem monthOffset_findMonthGo (L : Bool) (doy : Nat) :
    ∀ j, monthOffset L (findMonthGo L doy j) ≤ doy := by
  intro j
  induction j with
  | zero => simp [findMonthGo, monthOffset_one]
  | succ k ih =>
    unfold findMonthGo
    split
    · assumption
    · assumption

theorem le_findMonthGo (L : Bool) (doy : Nat) :
    ∀ j m, 2 ≤ m → m ≤ j + 1 → monthOffset L m ≤ doy → m ≤ findMonthGo L doy j := by
  intro j
  induction j with
  | zero => intro m h2 h1 _; omega
  | succ k ih =>
    intro m h2 h1 hmo
    unfold findMonthGo
    split
    · omega
    · next hlt =>
      rcases Nat.lt_or_ge m (k + 2) with h | h
      · exact ih m h2 (by omega) hmo
      · have : m = k + 2 := by omega
        subst this
        exact absurd hmo hlt

theorem doy_lt_findMonthGo_succ (L : Bool) (doy : Nat) (h : doy < monthOffset L 13) :
    doy < monthOffset L (findMonthGo L doy 11 + 1) := by
  by_contra hcon
  push_neg at hcon
  have hle := findMonthGo_le L doy 11
  rcases Nat.lt_or_ge (findMonthGo L doy 11) 12 with hlt | hge
  · have h1 := one_le_findMonthGo L doy 11
    have := le_findMonthGo L doy 11 (findMonthGo L doy 11 + 1) (by omega) (by omega) hcon
    omega
  · have heq : findMonthGo L doy 11 = 12 := by omega
    rw [heq] at hcon
    have h13 : (12 : Nat) + 1 = 13 := rfl
    rw [h13] at hcon
    omega

theorem daysToYear_succ (y : Int) :
    daysToYear (y + 1) = daysToYear y + 365 + (if isLeap y then 1 else 0) := by
  have hiff : isLeap y = true ↔ ((y % 4 = 0 ∧ y % 100 ≠ 0) ∨ y % 400 = 0) := by
    unfold isLeap
    simp
  by_cases h : isLeap y = true
  · rw [if_pos h]
    rw [hiff] at h
    unfold daysToYear
    omega
  · rw [if_neg h]
    have h2 : ¬ ((y % 4 = 0 ∧ y % 100 ≠ 0) ∨ y % 400 = 0) := fun hc => h (hiff.mpr hc)
    unfold daysToYear
    omega

theorem doeOf_lt (z : Int) : doeOf z < 146097 := by
  unfold doeOf
  omega

theorem doe_decomp (z : Int) :
    z + epochShift = 146097 * eraOf z + (doeOf z : Int) := by
  unfold eraOf doeOf epochShift
  omega

theorem yoeOf_le (z : Int) : yoeOf z ≤ 399 := findYoeGo_le _ 399

theorem ysoe_yoeOf_le (z : Int) : yearStartOfEra (yoeOf z) ≤ doeOf z :=
  yearStartOfEra_findYoeGo _ 399

theorem doeOf_lt_ysoe_succ (z : Int) :
    doeOf z < yearStartOfEra (yoeOf z + 1) :=
  doe_lt_findYoeGo_succ (doeOf z) (doeOf_lt z)

theorem isLeap_yearOf (z : Int) : isLeap (yearOf z) = isLeap (yoeOf z : Int) := by
  unfold yearOf
  exact isLeap_period (eraOf z) (yoeOf z)

theorem doyOf_lt (z : Int) :
    doyOf z < 365 + (if isLeap (yearOf z) then 1 else 0) := by
  have hs := yearStartOfEra_step (yoeOf z) (by have := yoeOf_le z; omega)
  have h1 := ysoe_yoeOf_le z
  have h2 := doeOf_lt_ysoe_succ z
  rw [isLeap_yearOf]
  unfold doyOf
  omega

theorem doyOf_lt_mo13 (z : Int) :
    doyOf z < monthOffset (isLeap (yearOf z)) 13 := by
  have := doyOf_lt z
  rw [monthOffset_13]
  omega

theorem monthOf_ge1 (z : Int) : 1 ≤ monthOf z := one_le_findMonthGo _ _ 11

theorem monthOf_le12 (z : Int) : monthOf z ≤ 12 := by
  have := findMonthGo_le (isLeap (yearOf z)) (doyOf z) 11
  unfold monthOf
  omega

theorem mo_monthOf_le (z : Int) :
    monthOffset (isLeap (yearOf z)) (monthOf z) ≤ doyOf z :=
  monthOffset_findMonthGo _ _ 11

theorem doyOf_lt_mo_succ (z : Int) :
    doyOf z < monthOffset (isLeap (yearOf z)) (monthOf z + 1) :=
  doy_lt_findMonthGo_succ _ _ (doyOf_lt_mo13 z)

theorem dayOf_ge1 (z : Int) : 1 ≤ dayOf z := by
  unfold dayOf
  omega

theorem dayOf_le (z : Int) :
    dayOf z ≤ daysInMonthL (isLeap (yearOf z)) (monthOf z) := by
  have hstep := monthOffset_step (isLeap (yearOf z)) (monthOf z)
    (monthOf_ge1 z) (monthOf_le12 z)
  have h1 := mo_monthOf_le z
  have h2 := doyOf_lt_mo_succ z
  unfold dayOf
  omega

/-- The civil date computed from a day number maps back to that day number:
`civilFromDays` is a right inverse of `daysFromCivil`. -/
theorem daysFromCivil_civilFromDays (z : Int) :
    daysFromCivil (yearOf z) (monthOf z) (dayOf z) = z := by
  have hera : daysToYear (yearOf z) =
      146097 * eraOf z + (yearStartOfEra (yoeOf z) : Int) := by
    unfold yearOf
    exact daysToYear_era (eraOf z) (yoeOf z) (by have := yoeOf_le z; omega)
  have hdoe := doe_decomp z
  have h1 := ysoe_yoeOf_le z
  have h2 := mo_monthOf_le z
  have hdoy : doyOf z = doeOf z - yearStartOfEra (yoeOf z) := rfl
  have hday : dayOf z =
      doyOf z - monthOffset (isLeap (yearOf z)) (monthOf z) + 1 := rfl
  unfold daysFromCivil
  omega

/-- Round trip: the day number of a valid civil date maps back to exactly
that civil date. -/
theorem civilFromDays_daysFromCivil (y : Int) (m d : Nat) (hm1 : 1 ≤ m)
    (hm2 : m ≤ 12) (hd1 : 1 ≤ d) (hd2 : d ≤ daysInMonthL (isLeap y) m) :
    yearOf (daysFromCivil y m d) = y ∧ monthOf (daysFromCivil y m d) = m ∧
      dayOf (daysFromCivil y m d) = d := by
  have hkb : 0 ≤ y % 400 ∧ y % 400 < 400 := by omega
  set k : Nat := (y % 400).toNat with hkdef
  have hy : y = 400 * (y / 400) + (k : Int) := by omega
  have hL : isLeap y = isLeap (k : Int) := by
    rw [hy]
    exact isLeap_period (y / 400) k
  have hk400 : k < 400 := by omega
  set L := isLeap y with hLdef
  set z := daysFromCivil y m d with hzdef
  have hA : daysToYear y = 146097 * (y / 400) + (yearStartOfEra k : Int) := by
    conv_lhs => rw [hy]
    exact daysToYear_era (y / 400) k (by omega)
  -- the day-of-era decomposition of z
  have hstep := monthOffset_step L m hm1 hm2
  have hmo13 : monthOffset L m + d - 1 < monthOffset L 13 := by
    have hmono := monthOffset_mono L (i := m + 1) (j := 13) (by omega) (by omega)
      (by omega)
    omega
  have hys : yearStartOfEra (k + 1) =
      yearStartOfEra k + 365 + (if isLeap (k : Int) then 1 else 0) :=
    yearStartOfEra_step k hk400
  have hmo13v : monthOffset L 13 = 365 + (if L then 1 else 0) := monthOffset_13 L
  have hLL : (if L then 1 else 0) = (if isLeap (k : Int) then 1 else 0) := by
    rw [hL]
  set r : Nat := yearStartOfEra k + (monthOffset L m + d - 1) with hrdef
  have hrlt : r < 146097 := by
    have h400 := yearStartOfEra_400
    have hmono := yearStartOfEra_mono (k + 1) 400 (by omega) (by omega)
    omega
  have hzz : z + epochShift = 146097 * (y / 400) + (r : Int) := by
    rw [hzdef]
    unfold daysFromCivil
    rw [← hLdef]
    omega
  have hera : eraOf z = y / 400 := by
    unfold eraOf
    omega
  have hdoe : doeOf z = r := by
    unfold doeOf
    omega
  have hysoler : yearStartOfEra k ≤ r := by omega
  have hrlt2 : r < yearStartOfEra (k + 1) := by omega
  have hyoe : yoeOf z = k := by
    unfold yoeOf
    rw [hdoe]
    have hge : k ≤ findYoeGo r 399 := le_findYoeGo r 399 k (by omega) hysoler
    have hle2 : findYoeGo r 399 ≤ k := by
      by_contra hcon
      push_neg at hcon
      have hsle := findYoeGo_le r 399
      have hm1 := yearStartOfEra_mono (k + 1) (findYoeGo r 399) (by omega) (by omega)
      have hm2 := yearStartOfEra_findYoeGo r 399
      omega
    omega
  have hyear : yearOf z = y := by
    unfold yearOf
    rw [hera, hyoe, ← hy]
  have hdoy : doyOf z = monthOffset L m + (d - 1) := by
    unfold doyOf
    rw [hdoe, hyoe]
    omega
  have hLz : isLeap (yearOf z) = L := by rw [hyear, hLdef]
  have hmonth : monthOf z = m := by
    unfold monthOf
    rw [hLz, hdoy]
    have hbr1 : monthOffset L m ≤ monthOffset L m + (d - 1) := by omega
    have hbr2 : monthOffset L m + (d - 1) < monthOffset L (m + 1) := by omega
    have hge : m ≤ findMonthGo L (monthOffset L m + (d - 1)) 11 := by
      rcases Nat.lt_or_ge m 2 with hm | hm
      · have := one_le_findMonthGo L (monthOffset L m + (d - 1)) 11
        omega
      · exact le_findMonthGo L _ 11 m hm (by omega) hbr1
    have hle2 : findMonthGo L (monthOffset L m + (d - 1)) 11 ≤ m := by
      by_contra hcon
      push_neg at hcon
      have hf12 := findMonthGo_le L (monthOffset L m + (d - 1)) 11
      have hmn := monthOffset_mono L (i := m + 1)
        (j := findMonthGo L (monthOffset L m + (d - 1)) 11) (by omega) (by omega)
        (by omega)
      have hsc := monthOffset_findMonthGo L (monthOffset L m + (d - 1)) 11
      omega
    omega
  refine ⟨hyear, hmonth, ?_⟩
  unfold dayOf
  rw [hLz, hmonth, hdoy]
  omega

/-! ## date-fns week operations (Sunday week start, firstWeekContainsDate = 1)

These model the external date-fns collaborator at day granularity with its
default options, which is how the library calls it. -/

/-- JavaScript getDay: day of week, 0 = Sunday (1970-01-01 was a Thursday). -/
def dowOf (z : Int) : Int := (z + 4) % 7

/-- date-fns startOfWeek with the default Sunday week start. -/
def startOfWeekD (z : Int) : Int := z - (z + 4) % 7

/-- date-fns endOfWeek (the Saturday of the week), at day granularity. -/
def endOfWeekD (z : Int) : Int := startOfWeekD z + 6

/-- Day number of January 1 of year y. -/
def jan1 (y : Int) : Int := daysFromCivil y 1 1

/-- Start of the first local week of year y: the week containing January 1,
since the default firstWeekContainsDate is 1. -/
def firstWeekStart (y : Int) : Int := startOfWeekD (jan1 y)

/-- date-fns getWeekYear (default options): the local week-numbering year. -/
def getWeekYear (z : Int) : Int :=
  if firstWeekStart (yearOf z + 1) ≤ z then yearOf z + 1
  else if firstWeekStart (yearOf z) ≤ z then yearOf z
  else yearOf z - 1

/-- date-fns startOfWeekYear (default options). -/
def startOfWeekYear (z : Int) : Int := firstWeekStart (getWeekYear z)

/-- date-fns getWeek (default options): 1-based local week number. The
millisecond rounding of the original is exact at day granularity. -/
def getWeek (z : Int) : Int := (startOfWeekD z - startOfWeekYear z) / 7 + 1

/-- date-fns setWeek (default options). -/
def setWeek (z w : Int) : Int := z - (getWeek z - w) * 7

/-- Number of local weeks of the week-numbering year y (52 or 53). Used to
state which week numbers are semantically valid for a week year. -/
def weeksInWeekYear (y : Int) : Int :=
  (firstWeekStart (y + 1) - firstWeekStart y) / 7

theorem startOfWeekD_le (z : Int) :
    startOfWeekD z ≤ z ∧ z ≤ startOfWeekD z + 6 := by
  unfold startOfWeekD
  omega

theorem startOfWeekD_idem (z : Int) :
    startOfWeekD (startOfWeekD z) = startOfWeekD z := by
  unfold startOfWeekD
  omega

theorem startOfWeekD_mono {a b : Int} (h : a ≤ b) :
    startOfWeekD a ≤ startOfWeekD b := by
  unfold startOfWeekD
  omega

theorem sunday_le_iff {s z : Int} (hs : startOfWeekD s = s) :
    s ≤ z ↔ s ≤ startOfWeekD z := by
  unfold startOfWeekD at hs ⊢
  omega

theorem jan1_le_self (z : Int) : jan1 (yearOf z) ≤ z := by
  have h := daysFromCivil_civilFromDays z
  have h1 := dayOf_ge1 z
  unfold daysFromCivil at h
  unfold jan1 daysFromCivil
  rw [monthOffset_one]
  omega

theorem lt_jan1_succ (z : Int) : z < jan1 (yearOf z + 1) := by
  have h := daysFromCivil_civilFromDays z
  have hstep := monthOffset_step (isLeap (yearOf z)) (monthOf z)
    (monthOf_ge1 z) (monthOf_le12 z)
  have hmono := monthOffset_mono (isLeap (yearOf z)) (i := monthOf z + 1)
    (j := 13) (by have := monthOf_le12 z; omega) (by omega) (by omega)
  have h13 := monthOffset_13 (isLeap (yearOf z))
  have hsucc := daysToYear_succ (yearOf z)
  have hd2 := dayOf_le z
  unfold daysFromCivil at h
  unfold jan1 daysFromCivil
  rw [monthOffset_one]
  by_cases hL : isLeap (yearOf z) = true
  · rw [if_pos hL] at hsucc
    rw [if_pos hL] at h13
    omega
  · rw [if_neg hL] at hsucc
    rw [if_neg hL] at h13
    omega

theorem yearOf_jan1 (y : Int) : yearOf (jan1 y) = y := by
  have h := civilFromDays_daysFromCivil y 1 1 (by omega) (by omega) (by omega)
    (by cases isLeap y <;> decide)
  exact h.1

theorem jan1_step (y : Int) :
    jan1 y + 365 ≤ jan1 (y + 1) ∧ jan1 (y + 1) ≤ jan1 y + 366 := by
  have := daysToYear_step y
  unfold jan1 daysFromCivil
  rw [monthOffset_one, monthOffset_one]
  omega

theorem jan1_mono {a b : Int} (h : a ≤ b) : jan1 a ≤ jan1 b := by
  have := daysToYear_mono h
  unfold jan1 daysFromCivil
  rw [monthOffset_one, monthOffset_one]
  omega

theorem jan1_gap {a b : Int} (h : a < b) : jan1 a + 364 ≤ jan1 b := by
  have := daysToYear_gap h
  unfold jan1 daysFromCivil
  rw [monthOffset_one, monthOffset_one]
  omega

theorem fws_near (y : Int) :
    jan1 y - 6 ≤ firstWeekStart y ∧ firstWeekStart y ≤ jan1 y := by
  unfold firstWeekStart startOfWeekD
  omega

theorem fws_mono {a b : Int} (h : a ≤ b) :
    firstWeekStart a ≤ firstWeekStart b :=
  startOfWeekD_mono (jan1_mono h)

theorem fws_gap {a b : Int} (h : a < b) :
    firstWeekStart a + 358 ≤ firstWeekStart b := by
  have h1 := fws_near a
  have h2 := fws_near b
  have h3 := jan1_gap h
  omega

theorem fws_sunday (y : Int) :
    startOfWeekD (firstWeekStart y) = firstWeekStart y :=
  startOfWeekD_idem _

theorem yearOf_lt_of_lt_jan1 {z Y : Int} (h : z < jan1 Y) : yearOf z < Y := by
  by_contra hcon
  push_neg at hcon
  have := jan1_mono hcon
  have := jan1_le_self z
  omega

theorem le_yearOf_of_jan1_le {z Y : Int} (h : jan1 Y ≤ z) : Y ≤ yearOf z := by
  by_contra hcon
  push_neg at hcon
  have h1 : yearOf z + 1 ≤ Y := by omega
  have := jan1_mono h1
  have := lt_jan1_succ z
  omega

theorem getWeekYear_bracket (z : Int) :
    firstWeekStart (getWeekYear z) ≤ z ∧
      z < firstWeekStart (getWeekYear z + 1) := by
  unfold getWeekYear
  split_ifs with h1 h2
  · refine ⟨h1, ?_⟩
    have ha := lt_jan1_succ z
    have hb := jan1_gap (show yearOf z + 1 < yearOf z + 2 by omega)
    have hc := fws_near (yearOf z + 2)
    have hd : yearOf z + 1 + 1 = yearOf z + 2 := by omega
    rw [hd]
    omega
  · exact ⟨h2, by omega⟩
  · have hd : yearOf z - 1 + 1 = yearOf z := by omega
    rw [hd]
    refine ⟨?_, by omega⟩
    have ha := jan1_le_self z
    have hb := jan1_gap (show yearOf z - 1 < yearOf z by omega)
    have hc := fws_near (yearOf z - 1)
    omega

theorem getWeekYear_eq_of_bracket {z Y : Int} (h1 : firstWeekStart Y ≤ z)
    (h2 : z < firstWeekStart (Y + 1)) : getWeekYear z = Y := by
  have hb := getWeekYear_bracket z
  rcases lt_trichotomy (getWeekYear z) Y with h | h | h
  · have : getWeekYear z + 1 ≤ Y := by omega
    have := fws_mono this
    omega
  · exact h
  · have : Y + 1 ≤ getWeekYear z := by omega
    have := fws_mono this
    omega

theorem getWeekYear_sow (z : Int) :
    getWeekYear (startOfWeekD z) = getWeekYear z := by
  have hb := getWeekYear_bracket z
  apply getWeekYear_eq_of_bracket
  · exact (sunday_le_iff (fws_sunday (getWeekYear z))).mp hb.1
  · have := (startOfWeekD_le z).1
    omega

theorem getWeek_sow (z : Int) : getWeek (startOfWeekD z) = getWeek z := by
  unfold getWeek startOfWeekYear
  rw [getWeekYear_sow, startOfWeekD_idem]

theorem fws_sub_dvd (z : Int) (Y : Int) :
    (7 : Int) ∣ (startOfWeekD z - firstWeekStart Y) := by
  unfold startOfWeekD firstWeekStart startOfWeekD
  omega

theorem sow_ge_fws (z : Int) :
    firstWeekStart (getWeekYear z) ≤ startOfWeekD z :=
  (sunday_le_iff (fws_sunday _)).mp (getWeekYear_bracket z).1

theorem fws_gap_ub (Y : Int) :
    firstWeekStart (Y + 1) ≤ firstWeekStart Y + 372 := by
  have h1 := fws_near Y
  have h2 := fws_near (Y + 1)
  have h3 := jan1_step Y
  omega

theorem fws_gap_dvd (Y : Int) :
    (7 : Int) ∣ (firstWeekStart (Y + 1) - firstWeekStart Y) := by
  unfold firstWeekStart startOfWeekD
  omega

theorem getWeek_ge1 (z : Int) : 1 ≤ getWeek z := by
  have h := sow_ge_fws z
  unfold getWeek startOfWeekYear
  omega

theorem getWeek_le53 (z : Int) : getWeek z ≤ 53 := by
  have h1 := getWeekYear_bracket z
  have h2 := (startOfWeekD_le z).1
  have h3 := fws_sub_dvd z (getWeekYear z)
  have h4 := fws_gap_ub (getWeekYear z)
  have h5 := fws_gap_dvd (getWeekYear z)
  unfold getWeek startOfWeekYear
  omega

theorem fws_add_week (z : Int) :
    firstWeekStart (getWeekYear z) + (getWeek z - 1) * 7 = startOfWeekD z := by
  have h1 := sow_ge_fws z
  have h2 := fws_sub_dvd z (getWeekYear z)
  unfold getWeek startOfWeekYear
  omega

theorem getWeekYear_fws (Y : Int) : getWeekYear (firstWeekStart Y) = Y :=
  getWeekYear_eq_of_bracket (le_refl _) (by have := fws_gap (show Y < Y + 1 by omega); omega)

theorem getWeek_fws (Y : Int) : getWeek (firstWeekStart Y) = 1 := by
  unfold getWeek startOfWeekYear
  rw [getWeekYear_fws, fws_sunday]
  omega

theorem setWeek_fws (Y w : Int) :
    setWeek (firstWeekStart Y) w = firstWeekStart Y + (w - 1) * 7 := by
  unfold setWeek
  rw [getWeek_fws]
  ring

theorem sow_fws_add_mul7 (Y n : Int) :
    startOfWeekD (firstWeekStart Y + n * 7) = firstWeekStart Y + n * 7 := by
  unfold firstWeekStart startOfWeekD
  omega

theorem weeksInWeekYear_bounds (Y : Int) :
    52 ≤ weeksInWeekYear Y ∧ weeksInWeekYear Y ≤ 53 := by
  have h1 := fws_near Y
  have h2 := fws_near (Y + 1)
  have h3 := jan1_step Y
  have h5 := fws_gap_dvd Y
  unfold weeksInWeekYear
  omega

theorem fws_gap_eq (Y : Int) :
    firstWeekStart (Y + 1) - firstWeekStart Y = 7 * weeksInWeekYear Y := by
  have h5 := fws_gap_dvd Y
  unfold weeksInWeekYear
  omega

theorem getWeekYear_fws_add (Y w : Int) (h1 : 1 ≤ w)
    (h2 : w ≤ weeksInWeekYear Y) :
    getWeekYear (firstWeekStart Y + (w - 1) * 7) = Y := by
  apply getWeekYear_eq_of_bracket
  · omega
  · have := fws_gap_eq Y
    omega

theorem getWeek_fws_add (Y w : Int) (h1 : 1 ≤ w) (h2 : w ≤ weeksInWeekYear Y) :
    getWeek (firstWeekStart Y + (w - 1) * 7) = w := by
  unfold getWeek startOfWeekYear
  rw [getWeekYear_fws_add Y w h1 h2, sow_fws_add_mul7]
  omega

/-! ## Date keys: shapes, builders and converters (src/types.ts, src/guards.ts,
src/builders.ts, src/converters.ts) -/

/-- The `DateKeyType` union of the source: the four key resolutions. -/
inductive DateKeyType where
  | day | week | month | year
  deriving DecidableEq, Repr

/-- A possibly-invalid JavaScript `Date`: `none` is an Invalid Date. -/
abbrev JSDate : Type := Option Int

instance exceptDecEq {ε α : Type} [DecidableEq ε] [DecidableEq α] :
    DecidableEq (Except ε α) := fun a b =>
  match a, b with
  | Except.ok x, Except.ok y => decidable_of_iff (x = y) (by simp)
  | Except.error x, Except.error y => decidable_of_iff (x = y) (by simp)
  | Except.ok _, Except.error _ => Decidable.isFalse (by simp)
  | Except.error _, Except.ok _ => Decidable.isFalse (by simp)

/-- Type guard for the DayKey shape (regex `^\d{4}-\d{2}-\d{2}$`). -/
def isDayKey (s : String) : Bool :=
  match s.data with
  | [y1, y2, y3, y4, '-', m1, m2, '-', d1, d2] =>
    isDigitC y1 && isDigitC y2 && isDigitC y3 && isDigitC y4 &&
    isDigitC m1 && isDigitC m2 && isDigitC d1 && isDigitC d2
  | _ => false

/-- Type guard for the WeekKey shape (regex `^\d{4}-W\d{2}$`). -/
def isWeekKey (s : String) : Bool :=
  match s.data with
  | [y1, y2, y3, y4, '-', 'W', w1, w2] =>
    isDigitC y1 && isDigitC y2 && isDigitC y3 && isDigitC y4 &&
    isDigitC w1 && isDigitC w2
  | _ => false

/-- Type guard for the MonthKey shape (regex `^\d{4}-\d{2}$`). -/
def isMonthKey (s : String) : Bool :=
  match s.data with
  | [y1, y2, y3, y4, '-', m1, m2] =>
    isDigitC y1 && isDigitC y2 && isDigitC y3 && isDigitC y4 &&
    isDigitC m1 && isDigitC m2
  | _ => false

/-- Type guard for the YearKey shape (regex `^\d{4}$`). -/
def isYearKey (s : String) : Bool :=
  match s.data with
  | [y1, y2, y3, y4] =>
    isDigitC y1 && isDigitC y2 && isDigitC y3 && isDigitC y4
  | _ => false

/-- JavaScript `String(i)` for an integer. -/
def intDigits (i : Int) : List Char :=
  if i < 0 then '-' :: natDigits (-i).toNat else natDigits i.toNat

/-- The `pad` helper of builders.ts: `String(n).padStart(2, "0")`. -/
def padStart2 (l : List Char) : List Char := padZ 2 l

/-- Builder `toDayKey(year, month, day)`. -/
def toDayKey (y m d : Int) : String :=
  String.mk (intDigits y ++ ('-' :: (padStart2 (intDigits m) ++
    ('-' :: padStart2 (intDigits d)))))

/-- Builder `toWeekKey(year, week)`. -/
def toWeekKey (y w : Int) : String :=
  String.mk (intDigits y ++ ('-' :: 'W' :: padStart2 (intDigits w)))

/-- Builder `toMonthKey(year, month)`. -/
def toMonthKey (y m : Int) : String :=
  String.mk (intDigits y ++ ('-' :: padStart2 (intDigits m)))

/-- Builder `toYearKey(year)`. -/
def toYearKey (y : Int) : String := String.mk (intDigits y)

/-- `dateToDayKey`: project the civil components (1-based month) into the
builder. -/
def dateToDayKey (z : Int) : String :=
  toDayKey (yearOf z) (monthOf z) (dayOf z)

/-- `dateToWeekKey`: `toWeekKey(getWeekYear(date), getWeek(date))`. -/
def dateToWeekKey (z : Int) : String :=
  toWeekKey (getWeekYear z) (getWeek z)

/-- `dateToMonthKey`. -/
def dateToMonthKey (z : Int) : String := toMonthKey (yearOf z) (monthOf z)

/-- `dateToYearKey`. -/
def dateToYearKey (z : Int) : String := toYearKey (yearOf z)

/-- date-fns `addLeadingZeros(signedYear > 0 ? year : 1 - year, 4)`: the
4-digit year of the `yyyy` (and week-year `YYYY`) format token, which prints
years below 1 in era style. -/
def fmtYear4 (y : Int) : List Char :=
  padZ 4 (natDigits (if 0 < y then y else 1 - y).toNat)

/-- date-fns `format(date, "yyyy-MM-dd")` on a valid date. -/
def formatYyyyMMdd (z : Int) : String :=
  String.mk (fmtYear4 (yearOf z) ++ ('-' :: (padZ 2 (natDigits (monthOf z)) ++
    ('-' :: padZ 2 (natDigits (dayOf z))))))

/-- date-fns `format(date, "yyyy-MM")` on a valid date. -/
def formatYyyyMM (z : Int) : String :=
  String.mk (fmtYear4 (yearOf z) ++ ('-' :: padZ 2 (natDigits (monthOf z))))

/-- date-fns `format(date, "yyyy")` on a valid date. -/
def formatYyyy (z : Int) : String := String.mk (fmtYear4 (yearOf z))

/-- date-fns `format(date, "YYYY-'W'ww")` (with useAdditionalWeekYearTokens)
on a valid date: zero-padded local week year and week number. -/
def formatWeekTok (z : Int) : String :=
  String.mk (fmtYear4 (getWeekYear z) ++
    ('-' :: 'W' :: padZ 2 (natDigits (getWeek z).toNat)))

/-- `formatDateAsKey(date, type)`: date-fns `format` throws a RangeError
("Invalid time value") on an Invalid Date. The impossible-type default branch
of the source cannot be reached from the `DateKeyType` enum. -/
def formatDateAsKey (d : JSDate) (t : DateKeyType) : Except String String :=
  match d with
  | none => Except.error "Invalid time value"
  | some z =>
    match t with
    | DateKeyType.day => Except.ok (formatYyyyMMdd z)
    | DateKeyType.week => Except.ok (formatWeekTok z)
    | DateKeyType.month => Except.ok (formatYyyyMM z)
    | DateKeyType.year => Except.ok (formatYyyy z)

/-- date-fns `parseISO` on the `YYYY-MM-DD` strings the library feeds it:
the month (1-12) and day-of-month ranges are validated and an Invalid Date
is produced when they fail; the parsed date is local midnight of the civil
day. -/
def jsParseISO (s : String) : JSDate :=
  match s.data with
  | [y1, y2, y3, y4, '-', m1, m2, '-', d1, d2] =>
    if isDigitC y1 && isDigitC y2 && isDigitC y3 && isDigitC y4 &&
        isDigitC m1 && isDigitC m2 && isDigitC d1 && isDigitC d2 then
      let y : Int := parseDigits [y1, y2, y3, y4]
      let m : Nat := parseDigits [m1, m2]
      let d : Nat := parseDigits [d1, d2]
      if 1 ≤ m ∧ m ≤ 12 ∧ 1 ≤ d ∧ d ≤ daysInMonthL (isLeap y) m then
        some (daysFromCivil y m d)
      else none
    else none
  | _ => none

/-- JavaScript `date.setFullYear(y, 0, 1)` followed by `setHours(0,0,0,0)`
on the reference date: every civil component of the reference is replaced, so
at day granularity the result does not depend on the reference. -/
def jsSetYMD (_ref : Int) (y : Int) (m d : Nat) : Int := daysFromCivil y m d

/-- date-fns `parse(week, "YYYY-'W'ww", referenceDate, { useAdditionalWeekYearTokens: true })`.
The `YYYY` setter runs first (higher priority): it replaces the reference
date by `startOfWeek` of January 1 of the week year (firstWeekContainsDate
is 1); then the `ww` setter applies `startOfWeek(setWeek(date, w))`. The
week-number parser validates `1 ≤ w ≤ 53`, giving an Invalid Date
otherwise. -/
def dateFnsParseWeek (s : String) (ref : Int) : JSDate :=
  match s.data with
  | [y1, y2, y3, y4, '-', 'W', w1, w2] =>
    if isDigitC y1 && isDigitC y2 && isDigitC y3 && isDigitC y4 &&
        isDigitC w1 && isDigitC w2 then
      let y : Int := parseDigits [y1, y2, y3, y4]
      let w : Int := parseDigits [w1, w2]
      if 1 ≤ w ∧ w ≤ 53 then
        let d1 := startOfWeekD (jsSetYMD ref y 1 1)
        some (startOfWeekD (setWeek d1 w))
      else none
    else none
  | _ => none

/-- `parseWeekKeyToDate`: parse the week key, take `startOfWeek`, format as
`yyyy-MM-dd`. date-fns `format` throws on the Invalid Date produced by a
failed parse. -/
def parseWeekKeyToDate (week : String) (ref : Int) : Except String String :=
  match dateFnsParseWeek week ref with
  | none => Except.error "Invalid time value"
  | some d => Except.ok (formatYyyyMMdd (startOfWeekD d))

/-- `parseDateKey(key)`: start instant of the period denoted by the key.
`ref` is the `new Date()` reference that `parseWeekKeyToDate` passes to the
date-fns `parse` call. A returned Invalid Date (`some none` in the source
semantics, here `Except.ok none`) is not an error. -/
def parseDateKey (key : String) (ref : Int) : Except String JSDate :=
  if isDayKey key then Except.ok (jsParseISO key)
  else if isWeekKey key then
    match parseWeekKeyToDate key ref with
    | Except.error e => Except.error e
    | Except.ok s => Except.ok (jsParseISO s)
  else if isMonthKey key then Except.ok (jsParseISO (key ++ "-01"))
  else if isYearKey key then Except.ok (jsParseISO (key ++ "-01-01"))
  else Except.error ("Invalid DateKey: " ++ key)

/-- `getDateKeyType(key)`. -/
def getDateKeyType (key : String) : Except String DateKeyType :=
  if isDayKey key then Except.ok DateKeyType.day
  else if isWeekKey key then Except.ok DateKeyType.week
  else if isMonthKey key then Except.ok DateKeyType.month
  else if isYearKey key then Except.ok DateKeyType.year
  else Except.error ("Invalid DateKey: " ++ key)

/-- `convertDateKey(dateKey, targetType)`. -/
def convertDateKey (key : String) (t : DateKeyType) (ref : Int) :
    Except String String :=
  match parseDateKey key ref with
  | Except.error e => Except.error e
  | Except.ok d => formatDateAsKey d t

/-- `parseDayKey`: split on "-" and parseInt the three fields (the library
only calls it behind the `isDayKey` guard; the catch-all is unreachable
there). -/
def parseDayKey (s : String) : Int × Int × Int :=
  match s.data with
  | [y1, y2, y3, y4, '-', m1, m2, '-', d1, d2] =>
    ((parseDigits [y1, y2, y3, y4] : Int), (parseDigits [m1, m2] : Int),
      (parseDigits [d1, d2] : Int))
  | _ => (0, 0, 0)

/-- `parseWeekKey`: split on "-W" and parseInt the two fields. -/
def parseWeekKey (s : String) : Int × Int :=
  match s.data with
  | [y1, y2, y3, y4, '-', 'W', w1, w2] =>
    ((parseDigits [y1, y2, y3, y4] : Int), (parseDigits [w1, w2] : Int))
  | _ => (0, 0)

/-- `parseMonthKey`. -/
def parseMonthKey (s : String) : Int × Int :=
  match s.data with
  | [y1, y2, y3, y4, '-', m1, m2] =>
    ((parseDigits [y1, y2, y3, y4] : Int), (parseDigits [m1, m2] : Int))
  | _ => (0, 0)

/-- `parseYearKey`. -/
def parseYearKey (s : String) : Int :=
  match s.data with
  | [y1, y2, y3, y4] => (parseDigits [y1, y2, y3, y4] : Int)
  | _ => 0

/-- The record returned by `parseDateKeyToParts`. -/
structure DateParts where
  year : Int
  month : Option Int
  day : Option Int
  week : Option Int
  deriving DecidableEq, Repr

/-- `parseDateKeyToParts(dateKey)`. -/
def parseDateKeyToParts (s : String) : Except String DateParts :=
  if isDayKey s then
    Except.ok ⟨(parseDayKey s).1, some (parseDayKey s).2.1,
      some (parseDayKey s).2.2, none⟩
  else if isWeekKey s then
    Except.ok ⟨(parseWeekKey s).1, none, none, some (parseWeekKey s).2⟩
  else if isMonthKey s then
    Except.ok ⟨(parseMonthKey s).1, some (parseMonthKey s).2, none, none⟩
  else if isYearKey s then
    Except.ok ⟨parseYearKey s, none, none, none⟩
  else Except.error ("Invalid DateKey: " ++ s)

/-! ## Current-period comparator (src/current.ts)

The source reads `new Date()` in each comparator; `now` is that instant. -/

/-- `isCurrentDay(dateKey)`. -/
def isCurrentDay (s : String) (now : Int) : Except String Bool :=
  match convertDateKey s DateKeyType.day now with
  | Except.error e => Except.error e
  | Except.ok a =>
    match formatDateAsKey (some now) DateKeyType.day with
    | Except.error e => Except.error e
    | Except.ok b => Except.ok (a == b)

/-- `isCurrentWeek(dateKey)`. -/
def isCurrentWeek (s : String) (now : Int) : Except String Bool :=
  match convertDateKey s DateKeyType.week now with
  | Except.error e => Except.error e
  | Except.ok a =>
    match formatDateAsKey (some now) DateKeyType.week with
    | Except.error e => Except.error e
    | Except.ok b => Except.ok (a == b)

/-- `isCurrentMonth(dateKey)`. -/
def isCurrentMonth (s : String) (now : Int) : Except String Bool :=
  match convertDateKey s DateKeyType.month now with
  | Except.error e => Except.error e
  | Except.ok a =>
    match formatDateAsKey (some now) DateKeyType.month with
    | Except.error e => Except.error e
    | Except.ok b => Except.ok (a == b)

/-- `isCurrentYear(dateKey)`. -/
def isCurrentYear (s : String) (now : Int) : Except String Bool :=
  match convertDateKey s DateKeyType.year now with
  | Except.error e => Except.error e
  | Except.ok a =>
    match formatDateAsKey (some now) DateKeyType.year with
    | Except.error e => Except.error e
    | Except.ok b => Except.ok (a == b)

/-- `isCurrentPeriod(dateKey, period?)`: dispatch on
`period ?? getDateKeyType(dateKey)` — so with `period` omitted,
`getDateKeyType` runs (and can throw) before the switch. The default switch
branch of the source is unreachable from the `DateKeyType` enum. -/
def isCurrentPeriod (s : String) (period : Option DateKeyType) (now : Int) :
    Except String Bool :=
  match (match period with
         | some p => Except.ok p
         | none => getDateKeyType s) with
  | Except.error e => Except.error e
  | Except.ok DateKeyType.day => isCurrentDay s now
  | Except.ok DateKeyType.week => isCurrentWeek s now
  | Except.ok DateKeyType.month => isCurrentMonth s now
  | Except.ok DateKeyType.year => isCurrentYear s now

/-! ## Friendly formatter (src/formatters.ts) and its Intl en-US collaborator -/

/-- The `omitCurrent` option value: `false | true | "year" | "month"`. -/
inductive OmitCur where
  | obool (b : Bool)
  | oyear
  | omonth
  deriving DecidableEq, Repr

/-- The `dateStyle` option value. -/
inductive DStyle where
  | full | long | medium | short
  deriving DecidableEq, Repr

/-- `FormatFriendlyDateOptions`; a `none` field is an absent property. -/
structure FormatOptionsE where
  omitCurrent : Option OmitCur
  dateStyle : Option DStyle
  deriving DecidableEq, Repr

/-- JavaScript truthiness of an `omitCurrent` value (the strings "year" and
"month" are truthy). -/
def OmitCur.truthy : OmitCur → Bool
  | OmitCur.obool b => b
  | _ => true

/-- The month-name length used by Intl for each dateStyle. -/
inductive MonthFmt where
  | mlong | mshort | mnumeric
  deriving DecidableEq, Repr

/-- `getMonthFormat(dateStyle)`. -/
def getMonthFormat : DStyle → MonthFmt
  | DStyle.full => MonthFmt.mlong
  | DStyle.long => MonthFmt.mlong
  | DStyle.medium => MonthFmt.mshort
  | DStyle.short => MonthFmt.mnumeric

/-- `shouldOmitYear(date, omitCurrent)`: false for a falsy option, else
compares the date year with the current year. -/
def shouldOmitYear (d : Int) (omitCurrent : OmitCur) (now : Int) : Bool :=
  if omitCurrent.truthy = false then false
  else yearOf d == yearOf now

/-- `shouldOmitMonth(date, omitCurrent)`: only for the literal "month"
option, and only when year and month both match the current date. -/
def shouldOmitMonth (d : Int) (omitCurrent : OmitCur) (now : Int) : Bool :=
  if omitCurrent == OmitCur.omonth then
    (yearOf d == yearOf now) && (monthOf d == monthOf now)
  else false

/-- en-US long month names. -/
def monthLongName : Nat → String
  | 1 => "January" | 2 => "February" | 3 => "March" | 4 => "April"
  | 5 => "May" | 6 => "June" | 7 => "July" | 8 => "August"
  | 9 => "September" | 10 => "October" | 11 => "November" | 12 => "December"
  | _ => ""

/-- en-US abbreviated month names. -/
def monthShortName : Nat → String
  | 1 => "Jan" | 2 => "Feb" | 3 => "Mar" | 4 => "Apr" | 5 => "May"
  | 6 => "Jun" | 7 => "Jul" | 8 => "Aug" | 9 => "Sep" | 10 => "Oct"
  | 11 => "Nov" | 12 => "Dec" | _ => ""

/-- en-US weekday names, indexed by JavaScript getDay (0 = Sunday). -/
def weekdayName : Nat → String
  | 0 => "Sunday" | 1 => "Monday" | 2 => "Tuesday" | 3 => "Wednesday"
  | 4 => "Thursday" | 5 => "Friday" | 6 => "Saturday" | _ => ""

/-- The option records the formatter passes to `Intl.DateTimeFormat`, one
constructor per `createFormatter` call site. -/
inductive IntlOpts where
  | dayNumeric
  | monthDay (mf : MonthFmt)
  | monthOnly (mf : MonthFmt)
  | monthYear (mf : MonthFmt)
  | styled (ds : DStyle)
  | yearNumeric
  deriving DecidableEq, Repr

/-- Intl month part for one date. -/
def intlMonthStr (mf : MonthFmt) (z : Int) : String :=
  match mf with
  | MonthFmt.mlong => monthLongName (monthOf z)
  | MonthFmt.mshort => monthShortName (monthOf z)
  | MonthFmt.mnumeric => String.mk (natDigits (monthOf z))

/-- Intl numeric day part. -/
def intlDayStr (z : Int) : String := String.mk (natDigits (dayOf z))

/-- Intl numeric year part (contract model: the proleptic year digits). -/
def intlYearStr (z : Int) : String := String.mk (intDigits (yearOf z))

/-- Intl 2-digit year used by the en-US short dateStyle. -/
def intlYear2Str (z : Int) : String :=
  String.mk (padZ 2 (natDigits ((yearOf z % 100).toNat)))

/-- `Intl.DateTimeFormat("en-US", opts).format(date)` modelled for the
option shapes the formatter builds, at day granularity. -/
def intlFormat (o : IntlOpts) (z : Int) : String :=
  match o with
  | IntlOpts.dayNumeric => intlDayStr z
  | IntlOpts.monthDay mf =>
    match mf with
    | MonthFmt.mnumeric => intlMonthStr mf z ++ "/" ++ intlDayStr z
    | _ => intlMonthStr mf z ++ " " ++ intlDayStr z
  | IntlOpts.monthOnly mf => intlMonthStr mf z
  | IntlOpts.monthYear mf =>
    match mf with
    | MonthFmt.mnumeric => intlMonthStr mf z ++ "/" ++ intlYearStr z
    | _ => intlMonthStr mf z ++ " " ++ intlYearStr z
  | IntlOpts.styled ds =>
    match ds with
    | DStyle.full =>
      weekdayName (dowOf z).toNat ++ ", " ++ intlMonthStr MonthFmt.mlong z ++
        " " ++ intlDayStr z ++ ", " ++ intlYearStr z
    | DStyle.long =>
      intlMonthStr MonthFmt.mlong z ++ " " ++ intlDayStr z ++ ", " ++ intlYearStr z
    | DStyle.medium =>
      intlMonthStr MonthFmt.mshort z ++ " " ++ intlDayStr z ++ ", " ++ intlYearStr z
    | DStyle.short =>
      intlMonthStr MonthFmt.mnumeric z ++ "/" ++ intlDayStr z ++ "/" ++ intlYear2Str z
  | IntlOpts.yearNumeric => intlYearStr z

/-- `formatter.formatRange(a, b)` modelled for the shapes used (en-US):
equal instants collapse to a single format; a shared month and year (or a
shared year for month+year formats) is elided; otherwise both endpoints are
formatted in full and joined with an en dash. No property proved below
depends on the exact text produced here. -/
def intlFormatRange (o : IntlOpts) (a b : Int) : String :=
  if a == b then intlFormat o a
  else
    match o with
    | IntlOpts.styled ds =>
      if yearOf a == yearOf b && monthOf a == monthOf b then
        match ds with
        | DStyle.short =>
          intlFormat (IntlOpts.styled ds) a ++ " – " ++ intlFormat (IntlOpts.styled ds) b
        | _ =>
          intlMonthStr (getMonthFormat ds) a ++ " " ++ intlDayStr a ++ " – " ++
            intlDayStr b ++ ", " ++ intlYearStr b
      else intlFormat o a ++ " – " ++ intlFormat o b
    | IntlOpts.monthYear mf =>
      if yearOf a == yearOf b then
        match mf with
        | MonthFmt.mnumeric => intlFormat o a ++ " – " ++ intlFormat o b
        | _ => intlMonthStr mf a ++ " – " ++ intlMonthStr mf b ++ " " ++ intlYearStr b
      else intlFormat o a ++ " – " ++ intlFormat o b
    | _ => intlFormat o a ++ " – " ++ intlFormat o b

/-- The range test `end && end !== start` of the formatter: the second key,
when it is a nonempty string different from the first. -/
def effectiveEnd (start : String) (endOpt : Option String) : Option String :=
  match endOpt with
  | some e => if e ≠ "" ∧ e ≠ start then some e else none
  | none => none

/-- `formatFriendlyDate`, with a structural recursion-depth budget. The
source recursion is shallow (a week expands once into a day range, whose
fallback formats two single keys), so any budget of at least 4 computes the
source semantics; the top-level entry point passes 8. The overloaded
JavaScript signature is already resolved: `endOpt` is the optional second
key, `options` the options record, `now` the wall-clock instant read by the
`shouldOmit` helpers and the nested `parseDateKey` reference dates. -/
def formatFriendlyDateFuel (fuel : Nat) (start : String)
    (endOpt : Option String) (options : FormatOptionsE) (now : Int) :
    Except String String :=
  match fuel with
  | 0 => Except.error "recursion fuel exhausted"
  | Nat.succ n =>
    let omitCurrent := options.omitCurrent.getD (OmitCur.obool false)
    let dateStyle := options.dateStyle.getD DStyle.long
    if start = "" then Except.ok ""
    else
      match effectiveEnd start endOpt with
      | some e =>
        -- range path
        let fallback : Except String String :=
          match formatFriendlyDateFuel n start none options now,
                formatFriendlyDateFuel n e none options now with
          | Except.ok a, Except.ok b => Except.ok (a ++ " – " ++ b)
          | Except.error m, _ => Except.error m
          | _, Except.error m => Except.error m
        if isWeekKey start && isWeekKey e then
          match parseDateKey start now, parseDateKey e now with
          | Except.ok ps, Except.ok pe =>
            match formatDateAsKey (Option.map startOfWeekD ps) DateKeyType.day,
                  formatDateAsKey (Option.map endOfWeekD pe) DateKeyType.day with
            | Except.ok sk, Except.ok ek =>
              formatFriendlyDateFuel n sk (some ek) options now
            | Except.error m, _ => Except.error m
            | _, Except.error m => Except.error m
          | Except.error m, _ => Except.error m
          | _, Except.error m => Except.error m
        else if isDayKey start && isDayKey e then
          match jsParseISO start, jsParseISO e with
          | some a, some b =>
            Except.ok (intlFormatRange (IntlOpts.styled dateStyle) a b)
          | _, _ => fallback
        else if isMonthKey start && isMonthKey e then
          match jsParseISO (start ++ "-01"), jsParseISO (e ++ "-01") with
          | some a, some b =>
            Except.ok (intlFormatRange
              (IntlOpts.monthYear (getMonthFormat dateStyle)) a b)
          | _, _ => fallback
        else fallback
      | none =>
        -- single-key path
        if isWeekKey start then
          match parseDateKey start now with
          | Except.error m => Except.error m
          | Except.ok p =>
            match formatDateAsKey (Option.map startOfWeekD p) DateKeyType.day,
                  formatDateAsKey (Option.map endOfWeekD p) DateKeyType.day with
            | Except.ok sk, Except.ok ek =>
              formatFriendlyDateFuel n sk (some ek) options now
            | Except.error m, _ => Except.error m
            | _, Except.error m => Except.error m
        else if isMonthKey start then
          match jsParseISO (start ++ "-01") with
          | some p =>
            let effectiveOmit :=
              if omitCurrent == OmitCur.obool true then OmitCur.oyear else omitCurrent
            let omitYear := shouldOmitYear p effectiveOmit now
            let monthFormat := getMonthFormat dateStyle
            Except.ok (if omitYear then intlFormat (IntlOpts.monthOnly monthFormat) p
              else intlFormat (IntlOpts.monthYear monthFormat) p)
          -- an invalid month falls through the remaining (disjoint) shape
          -- guards to the final `return start`
          | none => Except.ok start
        else if isDayKey start then
          match jsParseISO start with
          | some p =>
            let effectiveOmit :=
              if omitCurrent.truthy then OmitCur.omonth else omitCurrent
            let omitMonth := shouldOmitMonth p effectiveOmit now
            let omitYear := shouldOmitYear p effectiveOmit now
            Except.ok (if omitMonth then intlFormat IntlOpts.dayNumeric p
              else if omitYear then
                intlFormat (IntlOpts.monthDay (getMonthFormat dateStyle)) p
              else intlFormat (IntlOpts.styled dateStyle) p)
          | none => Except.ok start
        else if isYearKey start then
          match jsParseISO (start ++ "-01-01") with
          | some p => Except.ok (intlFormat IntlOpts.yearNumeric p)
          | none => Except.ok start
        else Except.ok start

/-- `formatFriendlyDate` entry point (single key or range). -/
def formatFriendlyDate (start : String) (endOpt : Option String)
    (options : FormatOptionsE) (now : Int) : Except String String :=
  formatFriendlyDateFuel 8 start endOpt options now

/-- The options value of a call that passes no options object. -/
def noOptions : FormatOptionsE := ⟨none, none⟩

/-! ## Shape lemmas, round-trip machinery and the claim theorems -/


theorem stringMk_data (s : String) : String.mk s.data = s := by
  cases s
  rfl

theorem isDayKey_data {s : String} (h : isDayKey s = true) :
    ∃ y1 y2 y3 y4 m1 m2 d1 d2,
      s.data = [y1, y2, y3, y4, '-', m1, m2, '-', d1, d2] ∧
      isDigitC y1 = true ∧ isDigitC y2 = true ∧ isDigitC y3 = true ∧
      isDigitC y4 = true ∧ isDigitC m1 = true ∧ isDigitC m2 = true ∧
      isDigitC d1 = true ∧ isDigitC d2 = true := by
  unfold isDayKey at h
  split at h
  · next y1 y2 y3 y4 m1 m2 d1 d2 heq =>
    simp only [Bool.and_eq_true] at h
    exact ⟨y1, y2, y3, y4, m1, m2, d1, d2, heq, h.1.1.1.1.1.1.1, h.1.1.1.1.1.1.2,
      h.1.1.1.1.1.2, h.1.1.1.1.2, h.1.1.1.2, h.1.1.2, h.1.2, h.2⟩
  · exact absurd h (by simp)

theorem isWeekKey_data {s : String} (h : isWeekKey s = true) :
    ∃ y1 y2 y3 y4 w1 w2,
      s.data = [y1, y2, y3, y4, '-', 'W', w1, w2] ∧
      isDigitC y1 = true ∧ isDigitC y2 = true ∧ isDigitC y3 = true ∧
      isDigitC y4 = true ∧ isDigitC w1 = true ∧ isDigitC w2 = true := by
  unfold isWeekKey at h
  split at h
  · next y1 y2 y3 y4 w1 w2 heq =>
    simp only [Bool.and_eq_true] at h
    exact ⟨y1, y2, y3, y4, w1, w2, heq, h.1.1.1.1.1, h.1.1.1.1.2, h.1.1.1.2,
      h.1.1.2, h.1.2, h.2⟩
  · exact absurd h (by simp)

theorem isMonthKey_data {s : String} (h : isMonthKey s = true) :
    ∃ y1 y2 y3 y4 m1 m2,
      s.data = [y1, y2, y3, y4, '-', m1, m2] ∧
      isDigitC y1 = true ∧ isDigitC y2 = true ∧ isDigitC y3 = true ∧
      isDigitC y4 = true ∧ isDigitC m1 = true ∧ isDigitC m2 = true := by
  unfold isMonthKey at h
  split at h
  · next y1 y2 y3 y4 m1 m2 heq =>
    simp only [Bool.and_eq_true] at h
    exact ⟨y1, y2, y3, y4, m1, m2, heq, h.1.1.1.1.1, h.1.1.1.1.2, h.1.1.1.2,
      h.1.1.2, h.1.2, h.2⟩
  · exact absurd h (by simp)

theorem isYearKey_data {s : String} (h : isYearKey s = true) :
    ∃ y1 y2 y3 y4,
      s.data = [y1, y2, y3, y4] ∧
      isDigitC y1 = true ∧ isDigitC y2 = true ∧ isDigitC y3 = true ∧
      isDigitC y4 = true := by
  unfold isYearKey at h
  split at h
  · next y1 y2 y3 y4 heq =>
    simp only [Bool.and_eq_true] at h
    exact ⟨y1, y2, y3, y4, heq, h.1.1.1, h.1.1.2, h.1.2, h.2⟩
  · exact absurd h (by simp)

theorem isDayKey_length {s : String} (h : isDayKey s = true) :
    s.data.length = 10 := by
  obtain ⟨y1, y2, y3, y4, m1, m2, d1, d2, heq, -⟩ := isDayKey_data h
  rw [heq]
  rfl

theorem isWeekKey_length {s : String} (h : isWeekKey s = true) :
    s.data.length = 8 := by
  obtain ⟨y1, y2, y3, y4, w1, w2, heq, -⟩ := isWeekKey_data h
  rw [heq]
  rfl

theorem isMonthKey_length {s : String} (h : isMonthKey s = true) :
    s.data.length = 7 := by
  obtain ⟨y1, y2, y3, y4, m1, m2, heq, -⟩ := isMonthKey_data h
  rw [heq]
  rfl

theorem isYearKey_length {s : String} (h : isYearKey s = true) :
    s.data.length = 4 := by
  obtain ⟨y1, y2, y3, y4, heq, -⟩ := isYearKey_data h
  rw [heq]
  rfl

-- pairwise exclusions by length
theorem week_false_of_day {s : String} (h : isDayKey s = true) :
    isWeekKey s = false := by
  cases hw : isWeekKey s
  · rfl
  · have := isDayKey_length h
    have := isWeekKey_length hw
    omega

theorem month_false_of_day {s : String} (h : isDayKey s = true) :
    isMonthKey s = false := by
  cases hw : isMonthKey s
  · rfl
  · have := isDayKey_length h
    have := isMonthKey_length hw
    omega

theorem year_false_of_day {s : String} (h : isDayKey s = true) :
    isYearKey s = false := by
  cases hw : isYearKey s
  · rfl
  · have := isDayKey_length h
    have := isYearKey_length hw
    omega

theorem month_false_of_week {s : String} (h : isWeekKey s = true) :
    isMonthKey s = false := by
  cases hw : isMonthKey s
  · rfl
  · have := isWeekKey_length h
    have := isMonthKey_length hw
    omega

theorem year_false_of_week {s : String} (h : isWeekKey s = true) :
    isYearKey s = false := by
  cases hw : isYearKey s
  · rfl
  · have := isWeekKey_length h
    have := isYearKey_length hw
    omega

theorem year_false_of_month {s : String} (h : isMonthKey s = true) :
    isYearKey s = false := by
  cases hw : isYearKey s
  · rfl
  · have := isMonthKey_length h
    have := isYearKey_length hw
    omega

theorem parseDigits_replicate_zero : ∀ j, parseDigits (List.replicate j '0') = 0 := by
  intro j
  induction j with
  | zero => rfl
  | succ n ih =>
    rw [List.replicate_succ, parseDigits_cons, ih]
    have : digitVal '0' = 0 := rfl
    rw [this]
    ring

theorem parseDigits_padZ (k : Nat) (l : List Char) :
    parseDigits (padZ k l) = parseDigits l := by
  unfold padZ
  rw [parseDigits_append, parseDigits_replicate_zero]
  ring

theorem padZ_length (k : Nat) (l : List Char) (h : l.length ≤ k) :
    (padZ k l).length = k := by
  simp [padZ]
  omega

theorem padZ_all_digits (k : Nat) (l : List Char)
    (h : ∀ c ∈ l, isDigitC c = true) : ∀ c ∈ padZ k l, isDigitC c = true := by
  intro c hc
  unfold padZ at hc
  rw [List.mem_append] at hc
  rcases hc with hc | hc
  · have hc0 : c = '0' := List.eq_of_mem_replicate hc
    subst hc0
    decide
  · exact h c hc

theorem natDigits_length_le : ∀ k n : Nat, 1 ≤ k → n < 10 ^ k →
    (natDigits n).length ≤ k := by
  intro k
  induction k with
  | zero => intro n h1 _; omega
  | succ j ih =>
    intro n _ h2
    by_cases hn : n < 10
    · rw [natDigits_lt10 hn]
      simp
    · rw [natDigits_ge10 n (by omega)]
      have hj : 1 ≤ j := by
        by_contra hc
        push_neg at hc
        interval_cases j
        simp at h2
        omega
      have hpow : 10 ^ (j + 1) = 10 * 10 ^ j := by ring
      have hdiv : n / 10 < 10 ^ j := by omega
      have := ih (n / 10) hj hdiv
      simp only [List.length_append, List.length_cons, List.length_nil]
      omega

theorem natDigits_length4 {n : Nat} (h1 : 1000 ≤ n) (h2 : n ≤ 9999) :
    (natDigits n).length = 4 := by
  rw [natDigits_ge10 n (by omega), natDigits_ge10 (n / 10) (by omega),
    natDigits_ge10 (n / 10 / 10) (by omega),
    natDigits_lt10 (show n / 10 / 10 / 10 < 10 by omega)]
  rfl

theorem list_len4 {l : List Char} (h : l.length = 4) :
    ∃ a b c d, l = [a, b, c, d] := by
  rcases l with _ | ⟨a, l⟩
  · simp at h
  rcases l with _ | ⟨b, l⟩
  · simp at h
  rcases l with _ | ⟨c, l⟩
  · simp at h
  rcases l with _ | ⟨d, l⟩
  · simp at h
  rcases l with _ | ⟨e, l⟩
  · exact ⟨a, b, c, d, rfl⟩
  · simp at h

theorem list_len2 {l : List Char} (h : l.length = 2) :
    ∃ a b, l = [a, b] := by
  rcases l with _ | ⟨a, l⟩
  · simp at h
  rcases l with _ | ⟨b, l⟩
  · simp at h
  rcases l with _ | ⟨c, l⟩
  · exact ⟨a, b, rfl⟩
  · simp at h

/-- A 4-digit character list is recovered from its numeric value by the
4-wide zero pad. -/
theorem padZ4_roundtrip {a b c d : Char} (ha : isDigitC a = true)
    (hb : isDigitC b = true) (hc : isDigitC c = true) (hd : isDigitC d = true) :
    padZ 4 (natDigits (parseDigits [a, b, c, d])) = [a, b, c, d] := by
  have h := padZ_natDigits_parseDigits [a, b, c, d] (by simp)
    (by intro x hx; simp at hx; rcases hx with h|h|h|h <;> subst h <;> assumption)
  simpa using h

/-- A 2-digit character list is recovered from its numeric value by the
2-wide zero pad. -/
theorem padZ2_roundtrip {a b : Char} (ha : isDigitC a = true)
    (hb : isDigitC b = true) :
    padZ 2 (natDigits (parseDigits [a, b])) = [a, b] := by
  have h := padZ_natDigits_parseDigits [a, b] (by simp)
    (by intro x hx; simp at hx; rcases hx with h|h <;> subst h <;> assumption)
  simpa using h

theorem parseDigits_lt4 {a b c d : Char} (ha : isDigitC a = true)
    (hb : isDigitC b = true) (hc : isDigitC c = true) (hd : isDigitC d = true) :
    parseDigits [a, b, c, d] < 10000 := by
  have h := parseDigits_lt [a, b, c, d]
    (by intro x hx; simp at hx; rcases hx with h|h|h|h <;> subst h <;> assumption)
  simpa using h

theorem parseDigits_lt2 {a b : Char} (ha : isDigitC a = true)
    (hb : isDigitC b = true) : parseDigits [a, b] < 100 := by
  have h := parseDigits_lt [a, b]
    (by intro x hx; simp at hx; rcases hx with h|h <;> subst h <;> assumption)
  simpa using h

/-- Computation rule for `jsParseISO` on an explicit day-shaped string. -/
theorem jsParseISO_explicit {s : String} {y1 y2 y3 y4 m1 m2 d1 d2 : Char}
    (hdata : s.data = [y1, y2, y3, y4, '-', m1, m2, '-', d1, d2]) :
    jsParseISO s =
      (if isDigitC y1 && isDigitC y2 && isDigitC y3 && isDigitC y4 &&
          isDigitC m1 && isDigitC m2 && isDigitC d1 && isDigitC d2 then
        let y : Int := parseDigits [y1, y2, y3, y4]
        let m : Nat := parseDigits [m1, m2]
        let d : Nat := parseDigits [d1, d2]
        if 1 ≤ m ∧ m ≤ 12 ∧ 1 ≤ d ∧ d ≤ daysInMonthL (isLeap y) m then
          some (daysFromCivil y m d)
        else none
      else none) := by
  unfold jsParseISO
  rw [hdata]
  try rfl

theorem day_false_of_week {s : String} (h : isWeekKey s = true) :
    isDayKey s = false := by
  cases hw : isDayKey s
  · rfl
  · have := isDayKey_length hw
    have := isWeekKey_length h
    omega

theorem day_false_of_month {s : String} (h : isMonthKey s = true) :
    isDayKey s = false := by
  cases hw : isDayKey s
  · rfl
  · have := isDayKey_length hw
    have := isMonthKey_length h
    omega

theorem day_false_of_year {s : String} (h : isYearKey s = true) :
    isDayKey s = false := by
  cases hw : isDayKey s
  · rfl
  · have := isDayKey_length hw
    have := isYearKey_length h
    omega

theorem week_false_of_month {s : String} (h : isMonthKey s = true) :
    isWeekKey s = false := by
  cases hw : isWeekKey s
  · rfl
  · have := isWeekKey_length hw
    have := isMonthKey_length h
    omega

theorem week_false_of_year {s : String} (h : isYearKey s = true) :
    isWeekKey s = false := by
  cases hw : isWeekKey s
  · rfl
  · have := isWeekKey_length hw
    have := isYearKey_length h
    omega

theorem month_false_of_year {s : String} (h : isYearKey s = true) :
    isMonthKey s = false := by
  cases hw : isMonthKey s
  · rfl
  · have := isMonthKey_length hw
    have := isYearKey_length h
    omega

/-- Computation rule for `isDayKey` on an explicit 10-character string. -/
theorem isDayKey_explicit {s : String} {y1 y2 y3 y4 m1 m2 d1 d2 : Char}
    (hdata : s.data = [y1, y2, y3, y4, '-', m1, m2, '-', d1, d2]) :
    isDayKey s =
      (isDigitC y1 && isDigitC y2 && isDigitC y3 && isDigitC y4 &&
        isDigitC m1 && isDigitC m2 && isDigitC d1 && isDigitC d2) := by
  unfold isDayKey
  rw [hdata]
  try rfl

/-- Computation rule for `isWeekKey` on an explicit 8-character string. -/
theorem isWeekKey_explicit {s : String} {y1 y2 y3 y4 w1 w2 : Char}
    (hdata : s.data = [y1, y2, y3, y4, '-', 'W', w1, w2]) :
    isWeekKey s =
      (isDigitC y1 && isDigitC y2 && isDigitC y3 && isDigitC y4 &&
        isDigitC w1 && isDigitC w2) := by
  unfold isWeekKey
  rw [hdata]
  try rfl

/-- Computation rule for `isMonthKey` on an explicit 7-character string. -/
theorem isMonthKey_explicit {s : String} {y1 y2 y3 y4 m1 m2 : Char}
    (hdata : s.data = [y1, y2, y3, y4, '-', m1, m2]) :
    isMonthKey s =
      (isDigitC y1 && isDigitC y2 && isDigitC y3 && isDigitC y4 &&
        isDigitC m1 && isDigitC m2) := by
  unfold isMonthKey
  rw [hdata]
  try rfl

/-- Computation rule for `isYearKey` on an explicit 4-character string. -/
theorem isYearKey_explicit {s : String} {y1 y2 y3 y4 : Char}
    (hdata : s.data = [y1, y2, y3, y4]) :
    isYearKey s =
      (isDigitC y1 && isDigitC y2 && isDigitC y3 && isDigitC y4) := by
  unfold isYearKey
  rw [hdata]
  try rfl

/-- Computation rule for `dateFnsParseWeek` on an explicit week-shaped
string. -/
theorem dateFnsParseWeek_explicit {s : String} {ref : Int}
    {y1 y2 y3 y4 w1 w2 : Char}
    (hdata : s.data = [y1, y2, y3, y4, '-', 'W', w1, w2]) :
    dateFnsParseWeek s ref =
      (if isDigitC y1 && isDigitC y2 && isDigitC y3 && isDigitC y4 &&
          isDigitC w1 && isDigitC w2 then
        if 1 ≤ (parseDigits [w1, w2] : Int) ∧ (parseDigits [w1, w2] : Int) ≤ 53 then
          some (startOfWeekD (setWeek
            (firstWeekStart (parseDigits [y1, y2, y3, y4] : Int))
            (parseDigits [w1, w2])))
        else none
      else none) := by
  unfold dateFnsParseWeek
  rw [hdata]
  try rfl

/-- Computation rule for `parseDayKey`. -/
theorem parseDayKey_explicit {s : String} {y1 y2 y3 y4 m1 m2 d1 d2 : Char}
    (hdata : s.data = [y1, y2, y3, y4, '-', m1, m2, '-', d1, d2]) :
    parseDayKey s = ((parseDigits [y1, y2, y3, y4] : Int),
      (parseDigits [m1, m2] : Int), (parseDigits [d1, d2] : Int)) := by
  unfold parseDayKey
  rw [hdata]
  try rfl

/-- Computation rule for `parseWeekKey`. -/
theorem parseWeekKey_explicit {s : String} {y1 y2 y3 y4 w1 w2 : Char}
    (hdata : s.data = [y1, y2, y3, y4, '-', 'W', w1, w2]) :
    parseWeekKey s = ((parseDigits [y1, y2, y3, y4] : Int),
      (parseDigits [w1, w2] : Int)) := by
  unfold parseWeekKey
  rw [hdata]
  try rfl

/-- Computation rule for `parseMonthKey`. -/
theorem parseMonthKey_explicit {s : String} {y1 y2 y3 y4 m1 m2 : Char}
    (hdata : s.data = [y1, y2, y3, y4, '-', m1, m2]) :
    parseMonthKey s = ((parseDigits [y1, y2, y3, y4] : Int),
      (parseDigits [m1, m2] : Int)) := by
  unfold parseMonthKey
  rw [hdata]
  try rfl

/-- Computation rule for `parseYearKey`. -/
theorem parseYearKey_explicit {s : String} {y1 y2 y3 y4 : Char}
    (hdata : s.data = [y1, y2, y3, y4]) :
    parseYearKey s = (parseDigits [y1, y2, y3, y4] : Int) := by
  unfold parseYearKey
  rw [hdata]
  try rfl

theorem data_mk (l : List Char) : (String.mk l).data = l := rfl

theorem daysInMonthL_le31 (L : Bool) (m : Nat) : daysInMonthL L m ≤ 31 := by
  unfold daysInMonthL
  split <;> (try split) <;> omega

theorem dayOf_le31 (z : Int) : dayOf z ≤ 31 :=
  le_trans (dayOf_le z) (daysInMonthL_le31 _ _)

theorem fmtYear4_eq {y : Int} (h1 : 1 ≤ y) :
    fmtYear4 y = padZ 4 (natDigits y.toNat) := by
  unfold fmtYear4
  rw [if_pos (by omega : (0 : Int) < y)]

theorem fmtYear4_decomp {y : Int} (h1 : 1 ≤ y) (h2 : y ≤ 9999) :
    ∃ a b c d : Char, fmtYear4 y = [a, b, c, d] ∧
      isDigitC a = true ∧ isDigitC b = true ∧ isDigitC c = true ∧
      isDigitC d = true ∧ (parseDigits [a, b, c, d] : Int) = y := by
  rw [fmtYear4_eq h1]
  have hlt : y.toNat < 10 ^ 4 := by omega
  have hlen : (natDigits y.toNat).length ≤ 4 := natDigits_length_le 4 y.toNat (by omega) hlt
  have hplen : (padZ 4 (natDigits y.toNat)).length = 4 := padZ_length 4 _ hlen
  obtain ⟨a, b, c, d, hl⟩ := list_len4 hplen
  have hdig := padZ_all_digits 4 (natDigits y.toNat) (natDigits_all_digits y.toNat)
  rw [hl] at hdig
  refine ⟨a, b, c, d, hl, hdig a (by simp), hdig b (by simp), hdig c (by simp),
    hdig d (by simp), ?_⟩
  rw [← hl, parseDigits_padZ, parseDigits_natDigits]
  omega

theorem pad2_decomp {n : Nat} (h2 : n ≤ 99) :
    ∃ a b : Char, padZ 2 (natDigits n) = [a, b] ∧
      isDigitC a = true ∧ isDigitC b = true ∧ parseDigits [a, b] = n := by
  have hlt : n < 10 ^ 2 := by omega
  have hlen : (natDigits n).length ≤ 2 := natDigits_length_le 2 n (by omega) hlt
  have hplen : (padZ 2 (natDigits n)).length = 2 := padZ_length 2 _ hlen
  obtain ⟨a, b, hl⟩ := list_len2 hplen
  have hdig := padZ_all_digits 2 (natDigits n) (natDigits_all_digits n)
  rw [hl] at hdig
  refine ⟨a, b, hl, hdig a (by simp), hdig b (by simp), ?_⟩
  rw [← hl, parseDigits_padZ, parseDigits_natDigits]

/-- Decomposition of `formatYyyyMMdd` into its ten characters, for a year in
the four-digit range. -/
theorem formatYyyyMMdd_decomp (x : Int) (h1 : 1 ≤ yearOf x) (h2 : yearOf x ≤ 9999) :
    ∃ a b c d m1 m2 d1 d2 : Char,
      (formatYyyyMMdd x).data = [a, b, c, d, '-', m1, m2, '-', d1, d2] ∧
      isDigitC a = true ∧ isDigitC b = true ∧ isDigitC c = true ∧
      isDigitC d = true ∧ isDigitC m1 = true ∧ isDigitC m2 = true ∧
      isDigitC d1 = true ∧ isDigitC d2 = true ∧
      (parseDigits [a, b, c, d] : Int) = yearOf x ∧
      parseDigits [m1, m2] = monthOf x ∧ parseDigits [d1, d2] = dayOf x := by
  obtain ⟨a, b, c, d, hy, hya, hyb, hyc, hyd, hyval⟩ := fmtYear4_decomp h1 h2
  obtain ⟨m1, m2, hm, hma, hmb, hmval⟩ :=
    pad2_decomp (show monthOf x ≤ 99 by have := monthOf_le12 x; omega)
  obtain ⟨d1, d2, hd, hda, hdb, hdval⟩ :=
    pad2_decomp (show dayOf x ≤ 99 by have := dayOf_le31 x; omega)
  refine ⟨a, b, c, d, m1, m2, d1, d2, ?_, hya, hyb, hyc, hyd, hma, hmb, hda, hdb,
    hyval, hmval, hdval⟩
  unfold formatYyyyMMdd
  rw [data_mk, hy, hm, hd]
  rfl

/-- Parsing back a formatted day string recovers the day number, when the
year is in the four-digit range. -/
theorem jsParseISO_formatYyyyMMdd (x : Int) (h1 : 1 ≤ yearOf x)
    (h2 : yearOf x ≤ 9999) : jsParseISO (formatYyyyMMdd x) = some x := by
  obtain ⟨a, b, c, d, m1, m2, d1, d2, hdata, hya, hyb, hyc, hyd, hma, hmb,
    hda, hdb, hyval, hmval, hdval⟩ := formatYyyyMMdd_decomp x h1 h2
  rw [jsParseISO_explicit hdata]
  rw [hya, hyb, hyc, hyd, hma, hmb, hda, hdb]
  simp only [Bool.and_self, if_true]
  rw [hmval, hdval]
  have hyv : (parseDigits [a, b, c, d] : Int) = yearOf x := hyval
  rw [hyv]
  rw [if_pos ⟨monthOf_ge1 x, monthOf_le12 x, dayOf_ge1 x, dayOf_le x⟩]
  rw [daysFromCivil_civilFromDays]

/-- A day inside the week-year Y has its calendar year in [Y - 1, Y]. -/
theorem yearOf_in_weekYear {Y x : Int} (hge : firstWeekStart Y ≤ x)
    (hlt : x < firstWeekStart (Y + 1)) : Y - 1 ≤ yearOf x ∧ yearOf x ≤ Y := by
  have hnear := fws_near Y
  have hnear2 := fws_near (Y + 1)
  have hgap := jan1_gap (show Y - 1 < Y by omega)
  constructor
  · have hj : jan1 (Y - 1) ≤ x := by omega
    have := le_yearOf_of_jan1_le hj
    omega
  · have hj : x < jan1 (Y + 1) := by omega
    have := yearOf_lt_of_lt_jan1 hj
    omega

theorem intDigits_nonneg {i : Int} (h : 0 ≤ i) :
    intDigits i = natDigits i.toNat := by
  unfold intDigits
  rw [if_neg (by omega)]

/-- Decomposition of a built week key with a 4-digit year. -/
theorem toWeekKey_data (Y w : Int) (hY1 : 1000 ≤ Y) (hY2 : Y ≤ 9999)
    (hw1 : 0 ≤ w) (hw2 : w ≤ 99) :
    ∃ a b c d e f : Char,
      (toWeekKey Y w).data = [a, b, c, d, '-', 'W', e, f] ∧
      isDigitC a = true ∧ isDigitC b = true ∧ isDigitC c = true ∧
      isDigitC d = true ∧ isDigitC e = true ∧ isDigitC f = true ∧
      (parseDigits [a, b, c, d] : Int) = Y ∧ (parseDigits [e, f] : Int) = w := by
  have h4 : (natDigits Y.toNat).length = 4 := natDigits_length4 (by omega) (by omega)
  obtain ⟨a, b, c, d, hl4⟩ := list_len4 h4
  have hdig4 := natDigits_all_digits Y.toNat
  rw [hl4] at hdig4
  obtain ⟨e, f, hl2, he, hf, hval2⟩ := pad2_decomp (show w.toNat ≤ 99 by omega)
  refine ⟨a, b, c, d, e, f, ?_, hdig4 a (by simp), hdig4 b (by simp),
    hdig4 c (by simp), hdig4 d (by simp), he, hf, ?_, ?_⟩
  · unfold toWeekKey padStart2
    rw [data_mk, intDigits_nonneg (by omega : (0:Int) ≤ Y),
      intDigits_nonneg (by omega : (0:Int) ≤ w), hl4, hl2]
    rfl
  · rw [← hl4, parseDigits_natDigits]
    omega
  · rw [hval2]
    omega

/-- What `parseDateKey` computes on a week-shaped key with a valid week
number and a start-of-week day in the four-digit year range: the start of
local week w of week-year Y. -/
theorem parseDateKey_weekShape (ref : Int) {s : String}
    {y1 y2 y3 y4 w1 w2 : Char}
    (hdata : s.data = [y1, y2, y3, y4, '-', 'W', w1, w2])
    (h1 : isDigitC y1 = true) (h2 : isDigitC y2 = true)
    (h3 : isDigitC y3 = true) (h4 : isDigitC y4 = true)
    (h5 : isDigitC w1 = true) (h6 : isDigitC w2 = true)
    (hw1 : 1 ≤ (parseDigits [w1, w2] : Int))
    (hw2 : (parseDigits [w1, w2] : Int) ≤ 53)
    (hyr1 : 1 ≤ yearOf (firstWeekStart (parseDigits [y1, y2, y3, y4] : Int) +
      ((parseDigits [w1, w2] : Int) - 1) * 7))
    (hyr2 : yearOf (firstWeekStart (parseDigits [y1, y2, y3, y4] : Int) +
      ((parseDigits [w1, w2] : Int) - 1) * 7) ≤ 9999) :
    parseDateKey s ref = Except.ok (some
      (firstWeekStart (parseDigits [y1, y2, y3, y4] : Int) +
        ((parseDigits [w1, w2] : Int) - 1) * 7)) := by
  have hweek : isWeekKey s = true := by
    rw [isWeekKey_explicit hdata, h1, h2, h3, h4, h5, h6]
    rfl
  have hday : isDayKey s = false := day_false_of_week hweek
  have hparse : dateFnsParseWeek s ref = some
      (firstWeekStart (parseDigits [y1, y2, y3, y4] : Int) +
        ((parseDigits [w1, w2] : Int) - 1) * 7) := by
    rw [dateFnsParseWeek_explicit hdata, h1, h2, h3, h4, h5, h6]
    simp only [Bool.and_self, if_true]
    rw [if_pos ⟨hw1, hw2⟩, setWeek_fws, sow_fws_add_mul7]
  have hpw : parseWeekKeyToDate s ref = Except.ok (formatYyyyMMdd
      (firstWeekStart (parseDigits [y1, y2, y3, y4] : Int) +
        ((parseDigits [w1, w2] : Int) - 1) * 7)) := by
    unfold parseWeekKeyToDate
    rw [hparse]
    show Except.ok (formatYyyyMMdd (startOfWeekD
      (firstWeekStart (parseDigits [y1, y2, y3, y4] : Int) +
        ((parseDigits [w1, w2] : Int) - 1) * 7))) = _
    rw [sow_fws_add_mul7]
  unfold parseDateKey
  rw [hday, hweek]
  simp only [Bool.false_eq_true, if_false, if_true]
  rw [hpw]
  show Except.ok (jsParseISO (formatYyyyMMdd
    (firstWeekStart (parseDigits [y1, y2, y3, y4] : Int) +
      ((parseDigits [w1, w2] : Int) - 1) * 7))) = _
  rw [jsParseISO_formatYyyyMMdd _ hyr1 hyr2]

theorem toNat_cast (n : Nat) : ((n : Int)).toNat = n := by omega

theorem string_append_data (s : String) (t : String) :
    (s ++ t).data = s.data ++ t.data := by
  exact String.data_append s t

/-- Rebuild `formatYyyyMMdd` from known digit characters. -/
theorem formatYyyyMMdd_reconstruct {x : Int} {y1 y2 y3 y4 m1 m2 d1 d2 : Char}
    (hy1 : isDigitC y1 = true) (hy2 : isDigitC y2 = true)
    (hy3 : isDigitC y3 = true) (hy4 : isDigitC y4 = true)
    (hm1 : isDigitC m1 = true) (hm2 : isDigitC m2 = true)
    (hd1 : isDigitC d1 = true) (hd2 : isDigitC d2 = true)
    (hY : yearOf x = (parseDigits [y1, y2, y3, y4] : Int))
    (hM : monthOf x = parseDigits [m1, m2])
    (hD : dayOf x = parseDigits [d1, d2])
    (hpos : 1 ≤ yearOf x) :
    formatYyyyMMdd x = String.mk [y1, y2, y3, y4, '-', m1, m2, '-', d1, d2] := by
  unfold formatYyyyMMdd
  rw [fmtYear4_eq hpos, hY, hM, hD, toNat_cast,
    padZ4_roundtrip hy1 hy2 hy3 hy4, padZ2_roundtrip hm1 hm2,
    padZ2_roundtrip hd1 hd2]
  rfl

/-- Rebuild `formatYyyyMM` from known digit characters. -/
theorem formatYyyyMM_reconstruct {x : Int} {y1 y2 y3 y4 m1 m2 : Char}
    (hy1 : isDigitC y1 = true) (hy2 : isDigitC y2 = true)
    (hy3 : isDigitC y3 = true) (hy4 : isDigitC y4 = true)
    (hm1 : isDigitC m1 = true) (hm2 : isDigitC m2 = true)
    (hY : yearOf x = (parseDigits [y1, y2, y3, y4] : Int))
    (hM : monthOf x = parseDigits [m1, m2])
    (hpos : 1 ≤ yearOf x) :
    formatYyyyMM x = String.mk [y1, y2, y3, y4, '-', m1, m2] := by
  unfold formatYyyyMM
  rw [fmtYear4_eq hpos, hY, hM, toNat_cast,
    padZ4_roundtrip hy1 hy2 hy3 hy4, padZ2_roundtrip hm1 hm2]
  rfl

/-- Rebuild `formatYyyy` from known digit characters. -/
theorem formatYyyy_reconstruct {x : Int} {y1 y2 y3 y4 : Char}
    (hy1 : isDigitC y1 = true) (hy2 : isDigitC y2 = true)
    (hy3 : isDigitC y3 = true) (hy4 : isDigitC y4 = true)
    (hY : yearOf x = (parseDigits [y1, y2, y3, y4] : Int))
    (hpos : 1 ≤ yearOf x) :
    formatYyyy x = String.mk [y1, y2, y3, y4] := by
  unfold formatYyyy
  rw [fmtYear4_eq hpos, hY, toNat_cast, padZ4_roundtrip hy1 hy2 hy3 hy4]

/-- Rebuild `formatWeekTok` from known digit characters. -/
theorem formatWeekTok_reconstruct {x : Int} {y1 y2 y3 y4 w1 w2 : Char}
    (hy1 : isDigitC y1 = true) (hy2 : isDigitC y2 = true)
    (hy3 : isDigitC y3 = true) (hy4 : isDigitC y4 = true)
    (hw1 : isDigitC w1 = true) (hw2 : isDigitC w2 = true)
    (hY : getWeekYear x = (parseDigits [y1, y2, y3, y4] : Int))
    (hW : getWeek x = (parseDigits [w1, w2] : Int))
    (hpos : 1 ≤ getWeekYear x) :
    formatWeekTok x = String.mk [y1, y2, y3, y4, '-', 'W', w1, w2] := by
  unfold formatWeekTok
  have hy4eq : fmtYear4 (getWeekYear x) = [y1, y2, y3, y4] := by
    rw [fmtYear4_eq hpos, hY, toNat_cast, padZ4_roundtrip hy1 hy2 hy3 hy4]
  have hw2eq : padZ 2 (natDigits (getWeek x).toNat) = [w1, w2] := by
    rw [hW, toNat_cast, padZ2_roundtrip hw1 hw2]
  rw [hy4eq, hw2eq]
  rfl

theorem ne_true_of_false {b : Bool} (h : b = false) : ¬ b = true := by
  simp [h]

theorem daysInMonthL_pos (L : Bool) {m : Nat} (h1 : 1 ≤ m) (h2 : m ≤ 12) :
    1 ≤ daysInMonthL L m := by
  have h : ∀ m, m < 13 → 1 ≤ m → 1 ≤ daysInMonthL L m := by
    cases L <;> decide
  exact h m (by omega) h1

/-- `convertDateKey` to day resolution is the identity on day keys whose
components name a real calendar date in a positive year. -/
theorem convertDateKey_day_id (ref : Int) {s : String}
    {y1 y2 y3 y4 m1 m2 d1 d2 : Char}
    (hdata : s.data = [y1, y2, y3, y4, '-', m1, m2, '-', d1, d2])
    (h1 : isDigitC y1 = true) (h2 : isDigitC y2 = true)
    (h3 : isDigitC y3 = true) (h4 : isDigitC y4 = true)
    (h5 : isDigitC m1 = true) (h6 : isDigitC m2 = true)
    (h7 : isDigitC d1 = true) (h8 : isDigitC d2 = true)
    (hy : 1 ≤ (parseDigits [y1, y2, y3, y4] : Int))
    (hm1 : 1 ≤ parseDigits [m1, m2]) (hm2 : parseDigits [m1, m2] ≤ 12)
    (hd1 : 1 ≤ parseDigits [d1, d2])
    (hd2 : parseDigits [d1, d2] ≤
      daysInMonthL (isLeap (parseDigits [y1, y2, y3, y4] : Int)) (parseDigits [m1, m2])) :
    convertDateKey s DateKeyType.day ref = Except.ok s := by
  have hdy : isDayKey s = true := by
    rw [isDayKey_explicit hdata, h1, h2, h3, h4, h5, h6, h7, h8]
    rfl
  have hiso : jsParseISO s = some (daysFromCivil
      (parseDigits [y1, y2, y3, y4] : Int) (parseDigits [m1, m2])
      (parseDigits [d1, d2])) := by
    rw [jsParseISO_explicit hdata, h1, h2, h3, h4, h5, h6, h7, h8]
    simp only [Bool.and_self, if_true]
    rw [if_pos ⟨hm1, hm2, hd1, hd2⟩]
  have hpd : parseDateKey s ref = Except.ok (jsParseISO s) := by
    unfold parseDateKey
    rw [if_pos hdy]
  obtain ⟨hyy, hmm, hdd⟩ := civilFromDays_daysFromCivil
    (parseDigits [y1, y2, y3, y4] : Int) (parseDigits [m1, m2])
    (parseDigits [d1, d2]) hm1 hm2 hd1 hd2
  unfold convertDateKey
  rw [hpd, hiso]
  show Except.ok (formatYyyyMMdd _) = _
  rw [formatYyyyMMdd_reconstruct h1 h2 h3 h4 h5 h6 h7 h8 hyy hmm hdd
    (by rw [hyy]; exact hy), ← hdata, stringMk_data]

/-- `convertDateKey` to month resolution is the identity on month keys with
month 1-12 and a positive year. -/
theorem convertDateKey_month_id (ref : Int) {s : String}
    {y1 y2 y3 y4 m1 m2 : Char}
    (hdata : s.data = [y1, y2, y3, y4, '-', m1, m2])
    (h1 : isDigitC y1 = true) (h2 : isDigitC y2 = true)
    (h3 : isDigitC y3 = true) (h4 : isDigitC y4 = true)
    (h5 : isDigitC m1 = true) (h6 : isDigitC m2 = true)
    (hy : 1 ≤ (parseDigits [y1, y2, y3, y4] : Int))
    (hm1 : 1 ≤ parseDigits [m1, m2]) (hm2 : parseDigits [m1, m2] ≤ 12) :
    convertDateKey s DateKeyType.month ref = Except.ok s := by
  have hmo : isMonthKey s = true := by
    rw [isMonthKey_explicit hdata, h1, h2, h3, h4, h5, h6]
    rfl
  have hdata2 : (s ++ "-01").data = [y1, y2, y3, y4, '-', m1, m2, '-', '0', '1'] := by
    rw [string_append_data, hdata]
    rfl
  have hiso : jsParseISO (s ++ "-01") = some (daysFromCivil
      (parseDigits [y1, y2, y3, y4] : Int) (parseDigits [m1, m2]) 1) := by
    rw [jsParseISO_explicit hdata2, h1, h2, h3, h4, h5, h6]
    simp only [Bool.and_self, Bool.and_true, if_true]
    have hp01 : parseDigits ['0', '1'] = 1 := by decide
    rw [hp01]
    have hcond : 1 ≤ parseDigits [m1, m2] ∧ parseDigits [m1, m2] ≤ 12 ∧
        (1 : Nat) ≤ 1 ∧ 1 ≤ daysInMonthL
          (isLeap (parseDigits [y1, y2, y3, y4] : Int)) (parseDigits [m1, m2]) :=
      ⟨hm1, hm2, le_refl 1, daysInMonthL_pos _ hm1 hm2⟩
    rw [if_pos hcond]
    rw [if_pos (by decide : (true && isDigitC '0' && isDigitC '1') = true)]
  have hpd : parseDateKey s ref = Except.ok (jsParseISO (s ++ "-01")) := by
    unfold parseDateKey
    rw [if_neg (ne_true_of_false (day_false_of_month hmo)),
      if_neg (ne_true_of_false (week_false_of_month hmo)), if_pos hmo]
  obtain ⟨hyy, hmm, hdd⟩ := civilFromDays_daysFromCivil
    (parseDigits [y1, y2, y3, y4] : Int) (parseDigits [m1, m2]) 1
    hm1 hm2 (by omega) (daysInMonthL_pos _ hm1 hm2)
  unfold convertDateKey
  rw [hpd, hiso]
  show Except.ok (formatYyyyMM _) = _
  rw [formatYyyyMM_reconstruct h1 h2 h3 h4 h5 h6 hyy hmm
    (by rw [hyy]; exact hy), ← hdata, stringMk_data]

/-- `convertDateKey` to year resolution is the identity on year keys with a
positive year. -/
theorem convertDateKey_year_id (ref : Int) {s : String} {y1 y2 y3 y4 : Char}
    (hdata : s.data = [y1, y2, y3, y4])
    (h1 : isDigitC y1 = true) (h2 : isDigitC y2 = true)
    (h3 : isDigitC y3 = true) (h4 : isDigitC y4 = true)
    (hy : 1 ≤ (parseDigits [y1, y2, y3, y4] : Int)) :
    convertDateKey s DateKeyType.year ref = Except.ok s := by
  have hyr : isYearKey s = true := by
    rw [isYearKey_explicit hdata, h1, h2, h3, h4]
    rfl
  have hdata2 : (s ++ "-01-01").data =
      [y1, y2, y3, y4, '-', '0', '1', '-', '0', '1'] := by
    rw [string_append_data, hdata]
    rfl
  have hiso : jsParseISO (s ++ "-01-01") = some (daysFromCivil
      (parseDigits [y1, y2, y3, y4] : Int) 1 1) := by
    rw [jsParseISO_explicit hdata2, h1, h2, h3, h4]
    simp only [Bool.and_self, Bool.and_true, if_true]
    have hp01 : parseDigits ['0', '1'] = 1 := by decide
    rw [hp01]
    have hcond : (1 : Nat) ≤ 1 ∧ (1 : Nat) ≤ 12 ∧ (1 : Nat) ≤ 1 ∧
        1 ≤ daysInMonthL (isLeap (parseDigits [y1, y2, y3, y4] : Int)) 1 :=
      ⟨le_refl 1, by omega, le_refl 1, daysInMonthL_pos _ (by omega) (by omega)⟩
    rw [if_pos hcond]
    rw [if_pos (by decide :
      (true && isDigitC '0' && isDigitC '1' && isDigitC '0' && isDigitC '1') = true)]
  have hpd : parseDateKey s ref = Except.ok (jsParseISO (s ++ "-01-01")) := by
    unfold parseDateKey
    rw [if_neg (ne_true_of_false (day_false_of_year hyr)),
      if_neg (ne_true_of_false (week_false_of_year hyr)),
      if_neg (ne_true_of_false (month_false_of_year hyr)), if_pos hyr]
  obtain ⟨hyy, hmm, hdd⟩ := civilFromDays_daysFromCivil
    (parseDigits [y1, y2, y3, y4] : Int) 1 1 (by omega) (by omega) (by omega)
    (daysInMonthL_pos _ (by omega) (by omega))
  unfold convertDateKey
  rw [hpd, hiso]
  show Except.ok (formatYyyy _) = _
  rw [formatYyyy_reconstruct h1 h2 h3 h4 hyy (by rw [hyy]; exact hy),
    ← hdata, stringMk_data]

/-- `convertDateKey` to week resolution is the identity on week keys whose
week year is between 2 and 9999 and whose week number is within the week
count of that week year. -/
theorem convertDateKey_week_id (ref : Int) {s : String}
    {y1 y2 y3 y4 w1 w2 : Char}
    (hdata : s.data = [y1, y2, y3, y4, '-', 'W', w1, w2])
    (h1 : isDigitC y1 = true) (h2 : isDigitC y2 = true)
    (h3 : isDigitC y3 = true) (h4 : isDigitC y4 = true)
    (h5 : isDigitC w1 = true) (h6 : isDigitC w2 = true)
    (hy2 : 2 ≤ (parseDigits [y1, y2, y3, y4] : Int))
    (hw1 : 1 ≤ (parseDigits [w1, w2] : Int))
    (hw2 : (parseDigits [w1, w2] : Int) ≤
      weeksInWeekYear (parseDigits [y1, y2, y3, y4] : Int)) :
    convertDateKey s DateKeyType.week ref = Except.ok s := by
  set Y : Int := (parseDigits [y1, y2, y3, y4] : Int) with hYdef
  set w : Int := (parseDigits [w1, w2] : Int) with hwdef
  have hw53 : w ≤ 53 := by
    have := weeksInWeekYear_bounds Y
    omega
  have hbr1 : firstWeekStart Y ≤ firstWeekStart Y + (w - 1) * 7 := by omega
  have hbr2 : firstWeekStart Y + (w - 1) * 7 < firstWeekStart (Y + 1) := by
    have := fws_gap_eq Y
    omega
  have hyin := yearOf_in_weekYear hbr1 hbr2
  have hyr1 : 1 ≤ yearOf (firstWeekStart Y + (w - 1) * 7) := by omega
  have hyr2 : yearOf (firstWeekStart Y + (w - 1) * 7) ≤ 9999 := by
    have : (parseDigits [y1, y2, y3, y4] : Int) < 10000 := by
      have := parseDigits_lt4 h1 h2 h3 h4
      omega
    omega
  have hpd := parseDateKey_weekShape ref hdata h1 h2 h3 h4 h5 h6 hw1 hw53 hyr1 hyr2
  have hWY : getWeekYear (firstWeekStart Y + (w - 1) * 7) = Y :=
    getWeekYear_fws_add Y w hw1 hw2
  have hWn : getWeek (firstWeekStart Y + (w - 1) * 7) = w :=
    getWeek_fws_add Y w hw1 hw2
  unfold convertDateKey
  rw [hpd]
  show Except.ok (formatWeekTok _) = _
  rw [formatWeekTok_reconstruct h1 h2 h3 h4 h5 h6 (by rw [hWY]) (by rw [hWn])
    (by rw [hWY]; omega), ← hdata, stringMk_data]

/-- Modelled from the spec: "a week is owned by whichever calendar year
contains the majority of its 7 days". The new year owns at least 4 of the 7
days (Sunday..Saturday) exactly when January 1 falls on or before the
4th day (Wednesday), so the majority year is the calendar year of the
Wednesday of the week. -/
def weekMajorityYear (z : Int) : Int := yearOf (startOfWeekD z + 3)

theorem startOfWeekD_plus6 (z : Int) :
    startOfWeekD (startOfWeekD z + 6) = startOfWeekD z := by
  unfold startOfWeekD
  omega

theorem startOfWeekD_plus7 (z : Int) :
    startOfWeekD (startOfWeekD z + 7) = startOfWeekD z + 7 := by
  unfold startOfWeekD
  omega

/-- The week-numbering year of a date is the calendar year of the Saturday
(last day) of its week. -/
theorem getWeekYear_eq_yearOf_saturday (z : Int) :
    getWeekYear z = yearOf (endOfWeekD z) := by
  show getWeekYear z = yearOf (startOfWeekD z + 6)
  have h1 := jan1_le_self (startOfWeekD z + 6)
  have h2 := lt_jan1_succ (startOfWeekD z + 6)
  apply getWeekYear_eq_of_bracket
  · have hm := startOfWeekD_mono h1
    rw [startOfWeekD_plus6] at hm
    have h3 := (startOfWeekD_le z).1
    unfold firstWeekStart
    omega
  · have hge : startOfWeekD z + 7 ≤ jan1 (yearOf (startOfWeekD z + 6) + 1) := by
      omega
    have hm := startOfWeekD_mono hge
    rw [startOfWeekD_plus7] at hm
    have h3 := (startOfWeekD_le z).2
    unfold firstWeekStart
    omega

/-- C1 (counterexample): the week containing December 26 2021 (a Sunday) has
six of its seven days in 2021, so the majority rule assigns it to 2021; the
code embeds week year 2022 (firstWeekContainsDate = 1: the week containing
January 1 belongs to the new year). -/
theorem dateToWeekKey_not_majority :
    dateToWeekKey (daysFromCivil 2021 12 26) = "2022-W01" ∧
      weekMajorityYear (daysFromCivil 2021 12 26) = 2021 ∧
      getWeekYear (daysFromCivil 2021 12 26) = 2022 := by
  refine ⟨by decide, by decide, by decide⟩

/-- C1 (amended): for every date, `dateToWeekKey` embeds as the
week-numbering year the calendar year that contains the SATURDAY (last day)
of the week containing the date — not the majority of its days — and the
three boundary examples hold as stated. -/
theorem dateToWeekKey_saturday_rule :
    (∀ z : Int, getWeekYear z = yearOf (endOfWeekD z)) ∧
      dateToWeekKey (daysFromCivil 2023 12 31) = "2024-W01" ∧
      dateToWeekKey (daysFromCivil 2024 1 1) = "2024-W01" ∧
      dateToWeekKey (daysFromCivil 2023 12 30) = "2023-W52" :=
  ⟨getWeekYear_eq_yearOf_saturday, by decide, by decide, by decide⟩

/-- C2 (code bug): with the wall clock at June 17 2026, formatting the day
key "2026-06-17" with omitCurrent "year" renders just "17" — the month is
dropped along with the year, because the day-key path collapses every truthy
omitCurrent value (including "year") to "month". A day of the current year
in a different month keeps its month, as documented. -/
theorem formatFriendlyDate_omit_year_drops_month :
    formatFriendlyDate "2026-06-17" none ⟨some OmitCur.oyear, none⟩
      (daysFromCivil 2026 6 17) = Except.ok "17" ∧
    formatFriendlyDate "2026-02-15" none ⟨some OmitCur.oyear, none⟩
      (daysFromCivil 2026 6 17) = Except.ok "February 15" := by
  refine ⟨by decide, by decide⟩

/-- C3 (counterexample): `isCurrentPeriod` with the period omitted throws
the InvalidKey error on a string of no recognized shape, instead of
returning false. -/
theorem isCurrentPeriod_throws_on_invalid :
    isCurrentPeriod "not-a-key" none 0 =
      Except.error "Invalid DateKey: not-a-key" := by decide

/-- C3 (amended): for every string matching none of the four key shapes and
every clock instant, `isCurrentPeriod` with the period argument omitted
raises the InvalidKey error (from the `getDateKeyType` call that computes
the key resolution) rather than returning false. -/
theorem isCurrentPeriod_invalid_raises :
    ∀ (s : String) (now : Int), isDayKey s = false → isWeekKey s = false →
      isMonthKey s = false → isYearKey s = false →
      isCurrentPeriod s none now = Except.error ("Invalid DateKey: " ++ s) := by
  intro s now h1 h2 h3 h4
  have hg : getDateKeyType s = Except.error ("Invalid DateKey: " ++ s) := by
    unfold getDateKeyType
    rw [if_neg (ne_true_of_false h1), if_neg (ne_true_of_false h2),
      if_neg (ne_true_of_false h3), if_neg (ne_true_of_false h4)]
  unfold isCurrentPeriod
  rw [hg]

theorem isCurrentPeriod_invalid_raises_witness :
    isCurrentPeriod "xyz" none 5 = Except.error "Invalid DateKey: xyz" :=
  isCurrentPeriod_invalid_raises "xyz" 5 (by decide) (by decide) (by decide)
    (by decide)

/-- C8: for every string, at most one of the four shape predicates holds. -/
theorem shape_predicates_disjoint (s : String) :
    (if isDayKey s then 1 else 0) + (if isWeekKey s then 1 else 0) +
      (if isMonthKey s then 1 else 0) + (if isYearKey s then 1 else 0) ≤ 1 := by
  by_cases h1 : isDayKey s = true
  · simp [h1, week_false_of_day h1, month_false_of_day h1, year_false_of_day h1]
  · by_cases h2 : isWeekKey s = true
    · simp [h1, h2, month_false_of_week h2, year_false_of_week h2]
    · by_cases h3 : isMonthKey s = true
      · simp [h1, h2, h3, year_false_of_month h3]
      · simp only [Bool.not_eq_true] at h1 h2 h3
        simp only [h1, h2, h3, Bool.false_eq_true, if_false, Nat.zero_add]
        split <;> omega

/-- C9: parsing a week key does not depend on the wall-clock reference date
the source passes to the date-fns parse call: the week-year setter replaces
every civil component of the reference. -/
theorem parseDateKey_clock_independent :
    ∀ (s : String) (r1 r2 : Int), isWeekKey s = true →
      parseDateKey s r1 = parseDateKey s r2 := by
  intro s r1 r2 h
  obtain ⟨y1, y2, y3, y4, w1, w2, hdata, -⟩ := isWeekKey_data h
  have hpw : parseWeekKeyToDate s r1 = parseWeekKeyToDate s r2 := by
    unfold parseWeekKeyToDate
    rw [dateFnsParseWeek_explicit hdata, dateFnsParseWeek_explicit hdata]
  unfold parseDateKey
  rw [hpw]

theorem parseDateKey_clock_independent_witness :
    parseDateKey "2024-W03" 0 = parseDateKey "2024-W03" 12345 :=
  parseDateKey_clock_independent "2024-W03" 0 12345 (by decide)

/-- C4 (counterexample): a date whose week-numbering year has fewer than
four digits produces a week key that fails the week-shape guard, so
`parseDateKey` raises InvalidKey and the round trip cannot even be
completed. -/
theorem dateToWeekKey_roundtrip_cex :
    dateToWeekKey (daysFromCivil 150 6 1) = "150-W23" ∧
      parseDateKey (dateToWeekKey (daysFromCivil 150 6 1)) 0 =
        Except.error "Invalid DateKey: 150-W23" := by
  refine ⟨by decide, by decide⟩

/-- C4 (amended): for every date whose week-numbering year has four digits
and every clock reference, parsing the generated week key succeeds, returns
the Sunday starting that week, and re-encoding that date reproduces the
original week key. -/
theorem dateToWeekKey_roundtrip (z ref : Int) (h1 : 1000 ≤ getWeekYear z)
    (h2 : getWeekYear z ≤ 9999) :
    ∃ x : Int, parseDateKey (dateToWeekKey z) ref = Except.ok (some x) ∧
      dateToWeekKey x = dateToWeekKey z := by
  refine ⟨startOfWeekD z, ?_, ?_⟩
  · have hx := fws_add_week z
    have hyb := yearOf_in_weekYear (Y := getWeekYear z) (sow_ge_fws z)
      (by
        have hb := (getWeekYear_bracket z).2
        have := (startOfWeekD_le z).1
        omega)
    obtain ⟨a, b, c, d, e, f, hdata, hda, hdb, hdc, hdd, hde, hdf, hYv, hwv⟩ :=
      toWeekKey_data (getWeekYear z) (getWeek z) h1 h2
        (by have := getWeek_ge1 z; omega) (by have := getWeek_le53 z; omega)
    have hps := parseDateKey_weekShape ref hdata hda hdb hdc hdd hde hdf
      (by rw [hwv]; exact getWeek_ge1 z) (by rw [hwv]; exact getWeek_le53 z)
      (by rw [hYv, hwv, hx]; omega) (by rw [hYv, hwv, hx]; omega)
    unfold dateToWeekKey
    rw [hps, hYv, hwv, hx]
  · unfold dateToWeekKey
    rw [getWeekYear_sow, getWeek_sow]

theorem dateToWeekKey_roundtrip_witness :
    ∃ x : Int, parseDateKey (dateToWeekKey (daysFromCivil 2024 6 15)) 0 =
        Except.ok (some x) ∧
      dateToWeekKey x = dateToWeekKey (daysFromCivil 2024 6 15) :=
  dateToWeekKey_roundtrip (daysFromCivil 2024 6 15) 0 (by decide) (by decide)

/-- C5 (counterexample): "2024-W53" has the week-key shape, but week-year
2024 has only 52 local weeks; converting it to its own resolution yields
"2025-W01", not the original key. -/
theorem convertDateKey_same_resolution_cex :
    isWeekKey "2024-W53" = true ∧
      getDateKeyType "2024-W53" = Except.ok DateKeyType.week ∧
      convertDateKey "2024-W53" DateKeyType.week 0 = Except.ok "2025-W01" := by
  refine ⟨by decide, by decide, by decide⟩

/-- C5 (amended): converting a key to its own resolution is the identity for
semantically valid keys: day keys naming a real calendar date in a positive
year; week keys whose week year is at least 2 and whose week number is
within the number of local weeks of that week year; month keys with month
1-12 and a positive year; year keys with a positive year. -/
theorem convertDateKey_same_resolution_id :
    (∀ (s : String) (ref : Int), isDayKey s = true →
      1 ≤ (parseDayKey s).1 →
      1 ≤ (parseDayKey s).2.1 → (parseDayKey s).2.1 ≤ 12 →
      1 ≤ (parseDayKey s).2.2 →
      (parseDayKey s).2.2 ≤ (daysInMonthL (isLeap (parseDayKey s).1)
        (parseDayKey s).2.1.toNat : Int) →
      convertDateKey s DateKeyType.day ref = Except.ok s) ∧
    (∀ (s : String) (ref : Int), isWeekKey s = true →
      2 ≤ (parseWeekKey s).1 → 1 ≤ (parseWeekKey s).2 →
      (parseWeekKey s).2 ≤ weeksInWeekYear (parseWeekKey s).1 →
      convertDateKey s DateKeyType.week ref = Except.ok s) ∧
    (∀ (s : String) (ref : Int), isMonthKey s = true →
      1 ≤ (parseMonthKey s).1 →
      1 ≤ (parseMonthKey s).2 → (parseMonthKey s).2 ≤ 12 →
      convertDateKey s DateKeyType.month ref = Except.ok s) ∧
    (∀ (s : String) (ref : Int), isYearKey s = true → 1 ≤ parseYearKey s →
      convertDateKey s DateKeyType.year ref = Except.ok s) := by
  refine ⟨?_, ?_, ?_, ?_⟩
  · intro s ref h hy hm1 hm2 hd1 hd2
    obtain ⟨y1, y2, y3, y4, m1, m2, d1, d2, hdata, g1, g2, g3, g4, g5, g6, g7, g8⟩ :=
      isDayKey_data h
    rw [parseDayKey_explicit hdata] at hy hm1 hm2 hd1 hd2
    simp only at hy hm1 hm2 hd1 hd2
    rw [toNat_cast] at hd2
    exact convertDateKey_day_id ref hdata g1 g2 g3 g4 g5 g6 g7 g8 hy
      (by exact_mod_cast hm1) (by exact_mod_cast hm2) (by exact_mod_cast hd1)
      (by exact_mod_cast hd2)
  · intro s ref h hy hw1 hw2
    obtain ⟨y1, y2, y3, y4, w1, w2, hdata, g1, g2, g3, g4, g5, g6⟩ :=
      isWeekKey_data h
    rw [parseWeekKey_explicit hdata] at hy hw1 hw2
    simp only at hy hw1 hw2
    exact convertDateKey_week_id ref hdata g1 g2 g3 g4 g5 g6 hy hw1 hw2
  · intro s ref h hy hm1 hm2
    obtain ⟨y1, y2, y3, y4, m1, m2, hdata, g1, g2, g3, g4, g5, g6⟩ :=
      isMonthKey_data h
    rw [parseMonthKey_explicit hdata] at hy hm1 hm2
    simp only at hy hm1 hm2
    exact convertDateKey_month_id ref hdata g1 g2 g3 g4 g5 g6 hy
      (by exact_mod_cast hm1) (by exact_mod_cast hm2)
  · intro s ref h hy
    obtain ⟨y1, y2, y3, y4, hdata, g1, g2, g3, g4⟩ := isYearKey_data h
    rw [parseYearKey_explicit hdata] at hy
    exact convertDateKey_year_id ref hdata g1 g2 g3 g4 hy

theorem convertDateKey_same_resolution_id_witness :
    convertDateKey "2024-06-15" DateKeyType.day 0 = Except.ok "2024-06-15" ∧
    convertDateKey "2024-W03" DateKeyType.week 0 = Except.ok "2024-W03" ∧
    convertDateKey "2024-06" DateKeyType.month 0 = Except.ok "2024-06" ∧
    convertDateKey "2024" DateKeyType.year 0 = Except.ok "2024" :=
  ⟨convertDateKey_same_resolution_id.1 "2024-06-15" 0 (by decide) (by decide)
      (by decide) (by decide) (by decide) (by decide),
    convertDateKey_same_resolution_id.2.1 "2024-W03" 0 (by decide) (by decide)
      (by decide) (by decide),
    convertDateKey_same_resolution_id.2.2.1 "2024-06" 0 (by decide) (by decide)
      (by decide) (by decide),
    convertDateKey_same_resolution_id.2.2.2 "2024" 0 (by decide) (by decide)⟩

/-- C6 (counterexample): "2024-W99" has the week-key shape but an invalid
week number; the single-week path formats the invalid parse result, and
date-fns format throws, so `formatFriendlyDate` raises instead of never
failing. -/
theorem formatFriendlyDate_throws_cex :
    isWeekKey "2024-W99" = true ∧
      formatFriendlyDate "2024-W99" none noOptions 0 =
        Except.error "Invalid time value" := by
  refine ⟨by decide, by decide⟩

/-- C6 (amended): for a single key matching none of the four shapes,
`formatFriendlyDate` returns the input unchanged, for every options record
and clock instant (the empty string returns itself via the falsy-start
guard). -/
theorem formatFriendlyDate_echoes_unknown :
    ∀ (s : String) (opts : FormatOptionsE) (now : Int),
      isDayKey s = false → isWeekKey s = false → isMonthKey s = false →
      isYearKey s = false →
      formatFriendlyDate s none opts now = Except.ok s := by
  intro s opts now h1 h2 h3 h4
  by_cases hs : s = ""
  · subst hs
    rfl
  · unfold formatFriendlyDate formatFriendlyDateFuel
    rw [if_neg hs]
    rw [if_neg (ne_true_of_false h2), if_neg (ne_true_of_false h3),
      if_neg (ne_true_of_false h1), if_neg (ne_true_of_false h4)]
    rfl

theorem formatFriendlyDate_echoes_unknown_witness :
    formatFriendlyDate "hello world" none noOptions 0 =
      Except.ok "hello world" :=
  formatFriendlyDate_echoes_unknown "hello world" noOptions 0 (by decide)
    (by decide) (by decide) (by decide)

/-- C7 (counterexample): `parseDateKey` raises on "2024-W99" even though the
string matches the week shape — the error is the RangeError from formatting
the invalid parse result, not InvalidKey. -/
theorem parseDateKey_raises_on_shaped_key :
    isWeekKey "2024-W99" = true ∧
      parseDateKey "2024-W99" 0 = Except.error "Invalid time value" := by
  refine ⟨by decide, by decide⟩

/-- C7 (amended): `parseDateKeyToParts` and `getDateKeyType` raise exactly
on the strings matching none of the four shapes; `parseDateKey` additionally
raises on week-shaped keys whose week number is outside 1..53 (the date-fns
RangeError), and succeeds on every other shaped key. -/
theorem invalid_key_errors_iff :
    ∀ (s : String) (ref : Int),
      ((parseDateKeyToParts s).isOk = true ↔
        (isDayKey s || isWeekKey s || isMonthKey s || isYearKey s) = true) ∧
      ((getDateKeyType s).isOk = true ↔
        (isDayKey s || isWeekKey s || isMonthKey s || isYearKey s) = true) ∧
      ((parseDateKey s ref).isOk = true ↔
        ((isDayKey s || isWeekKey s || isMonthKey s || isYearKey s) = true ∧
          (isWeekKey s = true →
            1 ≤ (parseWeekKey s).2 ∧ (parseWeekKey s).2 ≤ 53))) := by
  intro s ref
  refine ⟨?_, ?_, ?_⟩
  · unfold parseDateKeyToParts
    by_cases h1 : isDayKey s = true
    · simp [h1, Except.isOk, Except.toBool]
    · by_cases h2 : isWeekKey s = true
      · simp [h1, h2, Except.isOk, Except.toBool]
      · by_cases h3 : isMonthKey s = true
        · simp [h1, h2, h3, Except.isOk, Except.toBool]
        · by_cases h4 : isYearKey s = true
          · simp [h1, h2, h3, h4, Except.isOk, Except.toBool]
          · simp [h1, h2, h3, h4, Except.isOk, Except.toBool]
  · unfold getDateKeyType
    by_cases h1 : isDayKey s = true
    · simp [h1, Except.isOk, Except.toBool]
    · by_cases h2 : isWeekKey s = true
      · simp [h1, h2, Except.isOk, Except.toBool]
      · by_cases h3 : isMonthKey s = true
        · simp [h1, h2, h3, Except.isOk, Except.toBool]
        · by_cases h4 : isYearKey s = true
          · simp [h1, h2, h3, h4, Except.isOk, Except.toBool]
          · simp [h1, h2, h3, h4, Except.isOk, Except.toBool]
  · by_cases h1 : isDayKey s = true
    · have hpd : parseDateKey s ref = Except.ok (jsParseISO s) := by
        unfold parseDateKey
        rw [if_pos h1]
      rw [hpd]
      simp [h1, Except.isOk, Except.toBool, week_false_of_day h1]
    · by_cases h2 : isWeekKey s = true
      · obtain ⟨y1, y2, y3, y4, w1, w2, hdata, g1, g2, g3, g4, g5, g6⟩ :=
          isWeekKey_data h2
        rw [parseWeekKey_explicit hdata]
        by_cases hw : 1 ≤ (parseDigits [w1, w2] : Int) ∧
            (parseDigits [w1, w2] : Int) ≤ 53
        · have hpw : parseWeekKeyToDate s ref = Except.ok (formatYyyyMMdd
              (startOfWeekD (startOfWeekD (setWeek
                (firstWeekStart (parseDigits [y1, y2, y3, y4] : Int))
                (parseDigits [w1, w2]))))) := by
            unfold parseWeekKeyToDate
            rw [dateFnsParseWeek_explicit hdata, g1, g2, g3, g4, g5, g6]
            simp only [Bool.and_self, if_true]
            rw [if_pos hw]
          have hpd : parseDateKey s ref = Except.ok (jsParseISO (formatYyyyMMdd
              (startOfWeekD (startOfWeekD (setWeek
                (firstWeekStart (parseDigits [y1, y2, y3, y4] : Int))
                (parseDigits [w1, w2])))))) := by
            unfold parseDateKey
            rw [if_neg (ne_true_of_false (day_false_of_week h2)), if_pos h2, hpw]
          rw [hpd]
          simp [h2, Except.isOk, Except.toBool]
          omega
        · have hpw : parseWeekKeyToDate s ref =
              Except.error "Invalid time value" := by
            unfold parseWeekKeyToDate
            rw [dateFnsParseWeek_explicit hdata, g1, g2, g3, g4, g5, g6]
            simp only [Bool.and_self, if_true]
            rw [if_neg hw]
          have hpd : parseDateKey s ref =
              Except.error "Invalid time value" := by
            unfold parseDateKey
            rw [if_neg (ne_true_of_false (day_false_of_week h2)), if_pos h2, hpw]
          rw [hpd]
          simp [h2, Except.isOk, Except.toBool]
          omega
      · by_cases h3 : isMonthKey s = true
        · have hpd : parseDateKey s ref =
              Except.ok (jsParseISO (s ++ "-01")) := by
            unfold parseDateKey
            rw [if_neg (ne_true_of_false (day_false_of_month h3)),
              if_neg (ne_true_of_false (week_false_of_month h3)), if_pos h3]
          rw [hpd]
          simp [h2, h3, Except.isOk, Except.toBool]
        · by_cases h4 : isYearKey s = true
          · have hpd : parseDateKey s ref =
                Except.ok (jsParseISO (s ++ "-01-01")) := by
              unfold parseDateKey
              rw [if_neg (ne_true_of_false (day_false_of_year h4)),
                if_neg (ne_true_of_false (week_false_of_year h4)),
                if_neg (ne_true_of_false (month_false_of_year h4)), if_pos h4]
            rw [hpd]
            simp [h2, h4, Except.isOk, Except.toBool]
          · have hpd : parseDateKey s ref =
                Except.error ("Invalid DateKey: " ++ s) := by
              unfold parseDateKey
              rw [if_neg h1, if_neg h2, if_neg h3, if_neg h4]
            rw [hpd]
            simp [h1, h2, h3, h4, Except.isOk, Except.toBool]

/-- C10: a two-key range call with equal endpoints takes the same path as
the single-key call — the range branch requires the end key to differ from
the start — and returns exactly the same string. -/
theorem formatFriendlyDate_equal_range_eq_single :
    ∀ (k : String) (opts : FormatOptionsE) (now : Int),
      formatFriendlyDate k (some k) opts now =
        formatFriendlyDate k none opts now := by
  intro k opts now
  have heff : effectiveEnd k (some k) = effectiveEnd k none := by
    show (if k ≠ "" ∧ k ≠ k then some k else none) = none
    rw [if_neg (by simp)]
  unfold formatFriendlyDate formatFriendlyDateFuel
  rw [heff]

end FriendlyDate
